import Mathlib

/-!
Socket layer of the sylar coroutine library (`sylar/net/socket.cc`), and the
member listing of its configuration loader (`sylar/src/config.cc`)

A shallow embedding of `sylar::Socket`.  The socket object is a record of its
member variables; every operation takes the socket and the world and returns
its result together with the new socket and the new world.

The operating system (and the other external collaborators the socket talks
to: the descriptor registry `FdMgr` and `FSUtil::Unlink`) is an arbitrary
function `OS` from the history of calls issued so far and the current call to
a response.  The world is that history, so "issues no OS call" is "the world
is unchanged".
-/

namespace sylar

/-! ## System constants (Linux values of the system headers) -/

def AF_UNIX : Int := 1
def AF_INET : Int := 2
def AF_INET6 : Int := 10
def SOCK_STREAM : Int := 1
def SOCK_DGRAM : Int := 2
def SOL_SOCKET : Int := 1
def SO_REUSEADDR : Int := 2
def SO_RCVTIMEO : Int := 20
def SO_SNDTIMEO : Int := 21
def IPPROTO_TCP : Int := 6
def TCP_NODELAY : Int := 1

/-! ## Addresses (external value objects, consumed only) -/

/-- Dynamic class of an `Address` object. -/
inductive AddrClass
  | IPv4Address
  | IPv6Address
  | UnixAddress
  | UnknownAddress
deriving DecidableEq, Repr

/-- Modelled from the spec: the `Address` value objects of `address.h`, which
is not among the sources.  An address exposes its family tag, a wire-format
byte view and its length; `cls` is the C++ class of the object, which
`Socket::bind` inspects with a dynamic cast. For a local-domain address the
bytes are the path. -/
structure Address where
  cls : AddrClass
  family : Int
  data : List Nat
  len : Nat
deriving DecidableEq, Repr

/-- Modelled from the spec: `Address::getFamily`, the family tag. -/
def Address.getFamily (a : Address) : Int := a.family

/-- Modelled from the spec: `Address::getAddrLen`. -/
def Address.getAddrLen (a : Address) : Nat := a.len

/-- Modelled from the spec: `UnixAddress::getPath`. -/
def Address.getPath (a : Address) : List Nat := a.data

/-- Modelled from the spec: `new UnknownAddress(family)`, the opaque
"unknown family" fallback carrying the given family. -/
def UnknownAddress (family : Int) : Address :=
  { cls := AddrClass.UnknownAddress, family := family, data := [], len := 16 }

/-- Modelled from the spec: `new IPv4Address()`. -/
def IPv4Address : Address :=
  { cls := AddrClass.IPv4Address, family := AF_INET, data := [], len := 16 }

/-- Modelled from the spec: `new IPv6Address()`. -/
def IPv6Address : Address :=
  { cls := AddrClass.IPv6Address, family := AF_INET6, data := [], len := 28 }

/-- Modelled from the spec: `new UnixAddress()`. -/
def UnixAddress : Address :=
  { cls := AddrClass.UnixAddress, family := AF_UNIX, data := [], len := 109 }

/-- The `switch (m_family)` of `getRemoteAddress` / `getLocalAddress`: the
family-appropriate empty address the OS is asked to fill. -/
def emptyAddress (m_family : Int) : Address :=
  if m_family = AF_INET then IPv4Address
  else if m_family = AF_INET6 then IPv6Address
  else if m_family = AF_UNIX then UnixAddress
  else UnknownAddress m_family

/-! ## The operating system -/

/-- Calls the socket issues to its environment. -/
inductive Call
  | socket (family type protocol : Int)
  | setsockopt (fd level option : Int) (value : List Int)
  | accept (fd : Int)
  | fdmgr_get (fd : Int)
  | bind (fd : Int) (addr : Address)
  | connect (fd : Int) (addr : Address)
  | connect_with_timeout (fd : Int) (addr : Address) (timeout_ms : Nat)
  | listen (fd backlog : Int)
  | close (fd : Int)
  | send (fd : Int) (buffer : List Nat) (length : Nat) (flags : Int)
  | sendmsg (fd : Int) (iov : List (List Nat)) (length : Nat) (name : Option Address) (flags : Int)
  | sendto (fd : Int) (buffer : List Nat) (length : Nat) (flags : Int) (dest : Address)
  | recv (fd : Int) (length : Nat) (flags : Int)
  | recvmsg (fd : Int) (iov : List Nat) (length : Nat) (name : Option Address) (flags : Int)
  | recvfrom (fd : Int) (length : Nat) (flags : Int) (src : Address)
  | getpeername (fd : Int) (addrlen : Nat)
  | getsockname (fd : Int) (addrlen : Nat)
  | unlink (path : List Nat)
deriving DecidableEq, Repr

/-- Entry of the descriptor registry (`FdCtx`). -/
structure FdCtx where
  isSocket : Bool
  isClose : Bool
deriving DecidableEq, Repr

/-- What a call answers: its integer return value, the socket address and
length written through the out-parameters (`getpeername`, `getsockname`), and
the registry entry (`FdMgr::get`). -/
structure Resp where
  ret : Int
  sa_family : Int
  sa_data : List Nat
  addrlen : Nat
  ctx : Option FdCtx
deriving DecidableEq, Repr

/-- The history of calls issued so far, oldest first. -/
abbrev World := List Call

/-- The environment: any function of the history and the call. -/
abbrev OS := World → Call → Resp

/-- Issue one call: answer it from the history and record it. -/
def sys (os : OS) (w : World) (c : Call) : Resp × World :=
  (os w c, w ++ [c])

/-! ## The socket object -/

/-- Members of `sylar::Socket`. -/
structure Socket where
  m_sock : Int
  m_family : Int
  m_type : Int
  m_protocol : Int
  m_isConnected : Bool
  m_localAddress : Option Address
  m_remoteAddress : Option Address
deriving DecidableEq, Repr

/-- Modelled from the spec: `Socket::TCP` of the absent `socket.h`. -/
def TCP : Int := SOCK_STREAM
/-- Modelled from the spec: `Socket::UDP` of the absent `socket.h`. -/
def UDP : Int := SOCK_DGRAM
/-- Modelled from the spec: `Socket::IPv4` of the absent `socket.h`. -/
def IPv4 : Int := AF_INET
/-- Modelled from the spec: `Socket::IPv6` of the absent `socket.h`. -/
def IPv6 : Int := AF_INET6
/-- Modelled from the spec: `Socket::UNIX` of the absent `socket.h`. -/
def UNIX : Int := AF_UNIX

/-- Modelled from the spec: the value `m_isConnected` has before any operation
sets it.  The constructor in `socket.cc` does not list it, so it comes from the
member declaration in the absent `socket.h`; the spec has `connected` true only
after a successful connect, accept-derived init, or datagram-socket creation. -/
def m_isConnected_default : Bool := false

/-- Modelled from the spec: the default `timeout_ms` of `connect` and
`reconnect` declared in the absent `socket.h` ("no timeout"), which
`connect` compares with as `(uint64_t)-1`. -/
def NO_TIMEOUT : Nat := 2 ^ 64 - 1

/-- The constructor `Socket::Socket(int family, int type, int protocol)`. -/
def Socket.new (family type protocol : Int) : Socket :=
  { m_sock := -1, m_family := family, m_type := type, m_protocol := protocol,
    m_isConnected := m_isConnected_default,
    m_localAddress := none, m_remoteAddress := none }

/-- The method `Socket::isValid`. -/
def Socket.isValid (s : Socket) : Bool := decide (s.m_sock ≠ -1)

/-- Modelled from the spec: `Socket::isConnected` of the absent `socket.h`,
the accessor of the connected flag. -/
def Socket.isConnected (s : Socket) : Bool := s.m_isConnected

/-- The method `Socket::setOption`, which passes the value to `setsockopt` on
the socket's descriptor and reports whether it returned zero. -/
def Socket.setOption (os : OS) (s : Socket) (w : World) (level option : Int)
    (value : List Int) : Bool × World :=
  let r := sys os w (Call.setsockopt s.m_sock level option value)
  (decide (r.1.ret = 0), r.2)

/-- The method `Socket::initSock`. -/
def Socket.initSock (os : OS) (s : Socket) (w : World) : World :=
  let w1 := (s.setOption os w SOL_SOCKET SO_REUSEADDR [1]).2
  if s.m_type = SOCK_STREAM then
    (s.setOption os w1 IPPROTO_TCP TCP_NODELAY [1]).2
  else w1

/-- The method `Socket::newSock`. -/
def Socket.newSock (os : OS) (s : Socket) (w : World) : Socket × World :=
  let r := sys os w (Call.socket s.m_family s.m_type s.m_protocol)
  let s1 := { s with m_sock := r.1.ret }
  if s1.m_sock ≠ -1 then (s1, s1.initSock os r.2) else (s1, r.2)

/-- The method `Socket::close`. -/
def Socket.close (os : OS) (s : Socket) (w : World) : Bool × Socket × World :=
  if s.m_isConnected = false ∧ s.m_sock = -1 then (true, s, w)
  else
    let s1 := { s with m_isConnected := false }
    if s1.m_sock ≠ -1 then
      let r := sys os w (Call.close s1.m_sock)
      (decide (r.1.ret = 0), { s1 with m_sock := -1 }, r.2)
    else (true, s1, w)

/-- The address object after a successful `getpeername` / `getsockname`: the
family-appropriate empty address with the bytes the OS wrote, and, for a
local-domain socket, the length the OS reported (`setAddrLen`). -/
def resolvedAddress (m_family : Int) (r : Resp) : Address :=
  let result := emptyAddress m_family
  let filled := { result with family := r.sa_family, data := r.sa_data }
  if m_family = AF_UNIX then { filled with len := r.addrlen } else filled

/-- The method `Socket::getRemoteAddress`. -/
def Socket.getRemoteAddress (os : OS) (s : Socket) (w : World) : Address × Socket × World :=
  match s.m_remoteAddress with
  | some a => (a, s, w)
  | none =>
    let result := emptyAddress s.m_family
    let r := sys os w (Call.getpeername s.m_sock result.getAddrLen)
    if r.1.ret ≠ 0 then (UnknownAddress s.m_family, s, r.2)
    else
      let a := resolvedAddress s.m_family r.1
      (a, { s with m_remoteAddress := some a }, r.2)

/-- The method `Socket::getLocalAddress`. -/
def Socket.getLocalAddress (os : OS) (s : Socket) (w : World) : Address × Socket × World :=
  match s.m_localAddress with
  | some a => (a, s, w)
  | none =>
    let result := emptyAddress s.m_family
    let r := sys os w (Call.getsockname s.m_sock result.getAddrLen)
    if r.1.ret ≠ 0 then (UnknownAddress s.m_family, s, r.2)
    else
      let a := resolvedAddress s.m_family r.1
      (a, { s with m_localAddress := some a }, r.2)

/-- The part of `Socket::connect` after the descriptor has been ensured:
the family check, the OS connect (plain or timeout-bound), and the update of
the connected flag and of the address caches. -/
def Socket.connect_body (os : OS) (s : Socket) (w : World) (addr : Address)
    (timeout_ms : Nat) : Bool × Socket × World :=
  if addr.getFamily ≠ s.m_family then (false, s, w)
  else
    let r :=
      if timeout_ms = NO_TIMEOUT then sys os w (Call.connect s.m_sock addr)
      else sys os w (Call.connect_with_timeout s.m_sock addr timeout_ms)
    if r.1.ret ≠ 0 then
      let c := s.close os r.2
      (false, c.2.1, c.2.2)
    else
      let s1 := { s with m_isConnected := true }
      let g1 := s1.getRemoteAddress os r.2
      let g2 := g1.2.1.getLocalAddress os g1.2.2
      (true, g2.2.1, g2.2.2)

/-- The method `Socket::connect`. -/
def Socket.connect (os : OS) (s : Socket) (w : World) (addr : Address)
    (timeout_ms : Nat) : Bool × Socket × World :=
  let s0 := { s with m_remoteAddress := some addr }
  if s0.isValid = false then
    let n := s0.newSock os w
    if n.1.isValid = false then (false, n.1, n.2)
    else n.1.connect_body os n.2 addr timeout_ms
  else s0.connect_body os w addr timeout_ms

/-- The method `Socket::reconnect`. -/
def Socket.reconnect (os : OS) (s : Socket) (w : World) (timeout_ms : Nat) :
    Bool × Socket × World :=
  match s.m_remoteAddress with
  | none => (false, s, w)
  | some r => ({ s with m_localAddress := none }).connect os w r timeout_ms

/-- The factory `Socket::CreateTCP`. -/
def CreateTCP (address : Address) : Socket := Socket.new address.getFamily TCP 0

/-- The factory `Socket::CreateUDP`. -/
def CreateUDP (os : OS) (w : World) (address : Address) : Socket × World :=
  let sock := Socket.new address.getFamily UDP 0
  let n := sock.newSock os w
  ({ n.1 with m_isConnected := true }, n.2)

/-- The factory `Socket::CreateTCPSocket`. -/
def CreateTCPSocket : Socket := Socket.new IPv4 TCP 0

/-- The factory `Socket::CreateUDPSocket`. -/
def CreateUDPSocket (os : OS) (w : World) : Socket × World :=
  let sock := Socket.new IPv4 UDP 0
  let n := sock.newSock os w
  ({ n.1 with m_isConnected := true }, n.2)

/-- The factory `Socket::CreateTCPSocket6`. -/
def CreateTCPSocket6 : Socket := Socket.new IPv6 TCP 0

/-- The factory `Socket::CreateUDPSocket6`. -/
def CreateUDPSocket6 (os : OS) (w : World) : Socket × World :=
  let sock := Socket.new IPv6 UDP 0
  let n := sock.newSock os w
  ({ n.1 with m_isConnected := true }, n.2)

/-- The factory `Socket::CreateUnixTCPSocket`. -/
def CreateUnixTCPSocket : Socket := Socket.new UNIX TCP 0

/-- The factory `Socket::CreateUnixUDPSocket`: it only constructs the object. -/
def CreateUnixUDPSocket : Socket := Socket.new UNIX UDP 0

/-- The local-domain block of `Socket::bind`: a throwaway local-domain stream
socket probes the path with `connect`.  The result is `true` when the probe
connected (the path is live and `bind` returns false); otherwise the path is
unlinked.  The throwaway socket is destroyed on leaving the block, which runs
`close` on it. -/
def Socket.bind_probe (os : OS) (w : World) (uaddr : Address) : Bool × World :=
  let sock := CreateUnixTCPSocket
  let c := sock.connect os w uaddr NO_TIMEOUT
  if c.1 = true then (true, (c.2.1.close os c.2.2).2.2)
  else
    let u := sys os c.2.2 (Call.unlink uaddr.getPath)
    (false, (c.2.1.close os u.2).2.2)

/-- The part of `Socket::bind` after the descriptor has been ensured: the
family check, the local-domain probe, the OS bind and the address query. -/
def Socket.bind_body (os : OS) (s : Socket) (w : World) (addr : Address) :
    Bool × Socket × World :=
  if addr.getFamily ≠ s.m_family then (false, s, w)
  else
    let p := if addr.cls = AddrClass.UnixAddress then Socket.bind_probe os w addr else (false, w)
    if p.1 = true then (false, s, p.2)
    else
      let r := sys os p.2 (Call.bind s.m_sock addr)
      if r.1.ret ≠ 0 then (false, s, r.2)
      else
        let g := s.getLocalAddress os r.2
        (true, g.2.1, g.2.2)

/-- The method `Socket::bind`. -/
def Socket.bind (os : OS) (s : Socket) (w : World) (addr : Address) :
    Bool × Socket × World :=
  let s0 := { s with m_localAddress := some addr }
  if s0.isValid = false then
    let n := s0.newSock os w
    if n.1.isValid = false then (false, n.1, n.2)
    else n.1.bind_body os n.2 addr
  else s0.bind_body os w addr

/-- The method `Socket::listen`. -/
def Socket.listen (os : OS) (s : Socket) (w : World) (backlog : Int) :
    Bool × Socket × World :=
  if s.isValid = false then (false, s, w)
  else
    let r := sys os w (Call.listen s.m_sock backlog)
    if r.1.ret ≠ 0 then (false, s, r.2) else (true, s, r.2)

/-- The method `Socket::init`. -/
def Socket.init (os : OS) (s : Socket) (w : World) (sock : Int) : Bool × Socket × World :=
  let r := sys os w (Call.fdmgr_get sock)
  match r.1.ctx with
  | some ctx =>
    if ctx.isSocket = true ∧ ctx.isClose = false then
      let s1 := { s with m_sock := sock, m_isConnected := true }
      let w1 := s1.initSock os r.2
      let g1 := s1.getLocalAddress os w1
      let g2 := g1.2.1.getRemoteAddress os g1.2.2
      (true, g2.2.1, g2.2.2)
    else (false, s, r.2)
  | none => (false, s, r.2)

/-- The method `Socket::accept`.  The listening socket itself is not
modified; the result is the accepted socket, if any.  On the paths that
return no socket the freshly constructed object is destroyed, which runs
`close` on it. -/
def Socket.accept (os : OS) (s : Socket) (w : World) : Option Socket × World :=
  let sock := Socket.new s.m_family s.m_type s.m_protocol
  let r := sys os w (Call.accept s.m_sock)
  let newsock := r.1.ret
  if newsock = -1 then (none, (sock.close os r.2).2.2)
  else
    let i := sock.init os r.2 newsock
    if i.1 = true then (some i.2.1, i.2.2)
    else (none, (i.2.1.close os i.2.2).2.2)

/-- Conversion of an integer to the 32-bit `int`. -/
def toInt32 (x : Int) : Int := (x + 2 ^ 31) % 2 ^ 32 - 2 ^ 31

/-- Scalar `Socket::send(const void*, size_t, int)`. -/
def Socket.send (os : OS) (s : Socket) (w : World) (buffer : List Nat) (length : Nat)
    (flags : Int) : Int × Socket × World :=
  if s.isConnected = true then
    let r := sys os w (Call.send s.m_sock buffer length flags)
    (toInt32 r.1.ret, s, r.2)
  else (-1, s, w)

/-- Vectored `Socket::send(const iovec*, size_t, int)`. -/
def Socket.sendv (os : OS) (s : Socket) (w : World) (buffers : List (List Nat))
    (length : Nat) (flags : Int) : Int × Socket × World :=
  if s.isConnected = true then
    let r := sys os w (Call.sendmsg s.m_sock buffers length none flags)
    (toInt32 r.1.ret, s, r.2)
  else (-1, s, w)

/-- Scalar `Socket::sendTo(const void*, size_t, Address::ptr, int)`. -/
def Socket.sendTo (os : OS) (s : Socket) (w : World) (buffer : List Nat) (length : Nat)
    (dest : Address) (flags : Int) : Int × Socket × World :=
  if s.isConnected = true then
    let r := sys os w (Call.sendto s.m_sock buffer length flags dest)
    (toInt32 r.1.ret, s, r.2)
  else (-1, s, w)

/-- Vectored `Socket::sendTo(const iovec*, size_t, Address::ptr, int)`. -/
def Socket.sendTov (os : OS) (s : Socket) (w : World) (buffers : List (List Nat))
    (length : Nat) (dest : Address) (flags : Int) : Int × Socket × World :=
  if s.isConnected = true then
    let r := sys os w (Call.sendmsg s.m_sock buffers length (some dest) flags)
    (toInt32 r.1.ret, s, r.2)
  else (-1, s, w)

/-- Scalar `Socket::recv(void*, size_t, int)`. -/
def Socket.recv (os : OS) (s : Socket) (w : World) (length : Nat) (flags : Int) :
    Int × Socket × World :=
  if s.isConnected = true then
    let r := sys os w (Call.recv s.m_sock length flags)
    (toInt32 r.1.ret, s, r.2)
  else (-1, s, w)

/-- Vectored `Socket::recv(iovec*, size_t, int)`; the buffers are given by
their capacities. -/
def Socket.recvv (os : OS) (s : Socket) (w : World) (buffers : List Nat) (length : Nat)
    (flags : Int) : Int × Socket × World :=
  if s.isConnected = true then
    let r := sys os w (Call.recvmsg s.m_sock buffers length none flags)
    (toInt32 r.1.ret, s, r.2)
  else (-1, s, w)

/-- Scalar `Socket::recvFrom(void*, size_t, Address::ptr, int)`. -/
def Socket.recvFrom (os : OS) (s : Socket) (w : World) (length : Nat) (src : Address)
    (flags : Int) : Int × Socket × World :=
  if s.isConnected = true then
    let r := sys os w (Call.recvfrom s.m_sock length flags src)
    (toInt32 r.1.ret, s, r.2)
  else (-1, s, w)

/-- Vectored `Socket::recvFrom(iovec*, size_t, Address::ptr, int)`. -/
def Socket.recvFromv (os : OS) (s : Socket) (w : World) (buffers : List Nat) (length : Nat)
    (src : Address) (flags : Int) : Int × Socket × World :=
  if s.isConnected = true then
    let r := sys os w (Call.recvmsg s.m_sock buffers length (some src) flags)
    (toInt32 r.1.ret, s, r.2)
  else (-1, s, w)

/-- The `struct timeval` built by `setSendTimeout` / `setRecvTimeout` from the
64-bit millisecond count `v`: C++ division and remainder truncate toward zero,
and both fields are converted to `int`. -/
def timevalOf (v : Int) : Int × Int :=
  (toInt32 (Int.tdiv v 1000), toInt32 (Int.tmod v 1000 * 1000))

/-- The method `Socket::setSendTimeout`. -/
def Socket.setSendTimeout (os : OS) (s : Socket) (w : World) (v : Int) : World :=
  let tv := timevalOf v
  (s.setOption os w SOL_SOCKET SO_SNDTIMEO [tv.1, tv.2]).2

/-- The method `Socket::setRecvTimeout`. -/
def Socket.setRecvTimeout (os : OS) (s : Socket) (w : World) (v : Int) : World :=
  let tv := timevalOf v
  (s.setOption os w SOL_SOCKET SO_RCVTIMEO [tv.1, tv.2]).2

/-! ## Reachable socket states -/

/-- The socket states reachable from a factory by any sequence of public
operations, each run in an arbitrary history of the environment `os`.  The
eagerly allocating datagram factories are taken where their `socket` call
succeeded.  `accept` makes the accepted socket reachable. -/
inductive Reachable (os : OS) : Socket → Prop
  | byCreateTCP (address : Address) : Reachable os (CreateTCP address)
  | byCreateUDP (w : World) (address : Address) :
      (os w (Call.socket address.getFamily UDP 0)).ret ≠ -1 →
      Reachable os (CreateUDP os w address).1
  | byCreateTCPSocket : Reachable os CreateTCPSocket
  | byCreateUDPSocket (w : World) :
      (os w (Call.socket IPv4 UDP 0)).ret ≠ -1 → Reachable os (CreateUDPSocket os w).1
  | byCreateTCPSocket6 : Reachable os CreateTCPSocket6
  | byCreateUDPSocket6 (w : World) :
      (os w (Call.socket IPv6 UDP 0)).ret ≠ -1 → Reachable os (CreateUDPSocket6 os w).1
  | byCreateUnixTCPSocket : Reachable os CreateUnixTCPSocket
  | byCreateUnixUDPSocket : Reachable os CreateUnixUDPSocket
  | bind (s : Socket) (w : World) (addr : Address) :
      Reachable os s → Reachable os (s.bind os w addr).2.1
  | connect (s : Socket) (w : World) (addr : Address) (timeout_ms : Nat) :
      Reachable os s → Reachable os (s.connect os w addr timeout_ms).2.1
  | reconnect (s : Socket) (w : World) (timeout_ms : Nat) :
      Reachable os s → Reachable os (s.reconnect os w timeout_ms).2.1
  | listen (s : Socket) (w : World) (backlog : Int) :
      Reachable os s → Reachable os (s.listen os w backlog).2.1
  | accept (s : Socket) (w : World) (accepted : Socket) :
      Reachable os s → (s.accept os w).1 = some accepted → Reachable os accepted
  | close (s : Socket) (w : World) :
      Reachable os s → Reachable os (s.close os w).2.1
  | send (s : Socket) (w : World) (buffer : List Nat) (length : Nat) (flags : Int) :
      Reachable os s → Reachable os (s.send os w buffer length flags).2.1
  | sendv (s : Socket) (w : World) (buffers : List (List Nat)) (length : Nat) (flags : Int) :
      Reachable os s → Reachable os (s.sendv os w buffers length flags).2.1
  | sendTo (s : Socket) (w : World) (buffer : List Nat) (length : Nat) (dest : Address)
      (flags : Int) :
      Reachable os s → Reachable os (s.sendTo os w buffer length dest flags).2.1
  | sendTov (s : Socket) (w : World) (buffers : List (List Nat)) (length : Nat)
      (dest : Address) (flags : Int) :
      Reachable os s → Reachable os (s.sendTov os w buffers length dest flags).2.1
  | recv (s : Socket) (w : World) (length : Nat) (flags : Int) :
      Reachable os s → Reachable os (s.recv os w length flags).2.1
  | recvv (s : Socket) (w : World) (buffers : List Nat) (length : Nat) (flags : Int) :
      Reachable os s → Reachable os (s.recvv os w buffers length flags).2.1
  | recvFrom (s : Socket) (w : World) (length : Nat) (src : Address) (flags : Int) :
      Reachable os s → Reachable os (s.recvFrom os w length src flags).2.1
  | recvFromv (s : Socket) (w : World) (buffers : List Nat) (length : Nat) (src : Address)
      (flags : Int) :
      Reachable os s → Reachable os (s.recvFromv os w buffers length src flags).2.1
  | getLocalAddress (s : Socket) (w : World) :
      Reachable os s → Reachable os (s.getLocalAddress os w).2.1
  | getRemoteAddress (s : Socket) (w : World) :
      Reachable os s → Reachable os (s.getRemoteAddress os w).2.1

/-! ## Concrete environments and sockets used as test inputs -/

/-- A response carrying only a return value. -/
def Resp.ofRet (ret : Int) : Resp :=
  { ret := ret, sa_family := 0, sa_data := [], addrlen := 0, ctx := none }

/-- An environment in which every call returns `-1` (every call fails). -/
def osAllFail : OS := fun _ _ => Resp.ofRet (-1)

/-- An environment in which `socket` returns descriptor 3 and every other
call returns 0 (succeeds). -/
def osFd3 : OS := fun _ c =>
  match c with
  | Call.socket _ _ _ => Resp.ofRet 3
  | _ => Resp.ofRet 0

/-- An environment in which `socket` returns descriptor 3, the plain and the
timeout-bound OS connect fail with `-1`, and every other call returns 0. -/
def osConnectFails : OS := fun _ c =>
  match c with
  | Call.socket _ _ _ => Resp.ofRet 3
  | Call.connect _ _ => Resp.ofRet (-1)
  | Call.connect_with_timeout _ _ _ => Resp.ofRet (-1)
  | _ => Resp.ofRet 0

/-- An environment in which `socket` returns descriptor 3, `getsockname`
reports the IPv4 wildcard address with the assigned port 40000 (bytes
`156, 64` in network order), and every other call returns 0. -/
def osPort40000 : OS := fun _ c =>
  match c with
  | Call.socket _ _ _ => Resp.ofRet 3
  | Call.getsockname _ _ =>
    { ret := 0, sa_family := AF_INET, sa_data := [156, 64, 0, 0, 0, 0], addrlen := 16,
      ctx := none }
  | _ => Resp.ofRet 0

/-- The IPv4 wildcard address with the wildcard port, `0.0.0.0:0`. -/
def addrAny4 : Address :=
  { cls := AddrClass.IPv4Address, family := AF_INET, data := [0, 0, 0, 0, 0, 0], len := 16 }

/-- The IPv6 loopback address `[::1]:80`. -/
def addrLoop6 : Address :=
  { cls := AddrClass.IPv6Address, family := AF_INET6,
    data := [0, 80, 0, 0, 0, 0, 0, 0, 0, 0, 0, 0, 0, 0, 0, 0, 0, 0, 0, 0, 0, 1], len := 28 }

/-- An open, connected IPv4 stream socket on descriptor 3. -/
def sockOpen3 : Socket :=
  { m_sock := 3, m_family := AF_INET, m_type := SOCK_STREAM, m_protocol := 0,
    m_isConnected := true, m_localAddress := none, m_remoteAddress := none }

/-- The IPv4 address `10.0.0.1:80` of a peer. -/
def addrPeer4 : Address :=
  { cls := AddrClass.IPv4Address, family := AF_INET, data := [0, 80, 10, 0, 0, 1], len := 16 }

/-- A YAML tree (`YAML::Node`).  Text (`std::string`) is a list of characters.
An entry of a map is the scalar text of its key node (`it->first.Scalar()`, the
name `ListAllMember` builds on) and its value node (`it->second`). -/
inductive YamlNode
  | null
  | scalar (value : List Char)
  | sequence (items : List YamlNode)
  | map (entries : List (List Char × YamlNode))

/-- The test `YAML::Node::IsMap`. -/
def YamlNode.IsMap : YamlNode → Bool
  | YamlNode.map _ => true
  | _ => false

/-- The search `std::string::find_first_not_of(chars)`: the position of the
first character of `s` that is not in `chars`; `none` is `npos`. -/
def find_first_not_of : List Char → List Char → Option Nat
  | [], _ => none
  | c :: s, chars =>
    if c ∈ chars then (find_first_not_of s chars).map (fun i => i + 1) else some 0

/-- The character set that `ListAllMember` accepts in a name. -/
def validNameChars : List Char := "abcdefghijklmnopqrstuvwxyz._012345678".toList

/-- The name `ListAllMember` gives the member `key` of a map named `pfx`:
`prefix.empty() ? key : prefix + "." + key`. -/
def memberName (pfx key : List Char) : List Char :=
  if pfx.isEmpty then key else pfx ++ ".".toList ++ key

mutual
/-- The function `ListAllMember(prefix, node, output)`: the result is `output`
after the call. -/
def ListAllMember (pfx : List Char) (node : YamlNode)
    (output : List (List Char × YamlNode)) : List (List Char × YamlNode) :=
  if (find_first_not_of pfx validNameChars).isSome then output
  else
    match node with
    | YamlNode.map entries => ListAllMember_loop entries pfx (output ++ [(pfx, node)])
    | _ => output ++ [(pfx, node)]
/-- The `for` loop of `ListAllMember` over the entries of a map node named
`pfx`, from the entry reached so far. -/
def ListAllMember_loop (entries : List (List Char × YamlNode)) (pfx : List Char)
    (output : List (List Char × YamlNode)) : List (List Char × YamlNode) :=
  match entries with
  | [] => output
  | (key, value) :: rest =>
    ListAllMember_loop rest pfx (ListAllMember (memberName pfx key) value output)
end

/-- The C function `tolower` on one character. -/
def tolower (c : Char) : Char := c.toLower

/-- The method `Config::LookupBase` on the table of registered variables
(`GetDatas()`, declared in the absent `config.h`), given as a finite map. -/
def LookupBase {Var : Type} (datas : List Char → Option Var) (name : List Char) :
    Option Var :=
  datas name

/-- One round of the `for` loop of `Config::LoadFromYaml` on the listed entry
`i`: the `fromString` call it makes, if any, as the lowered key, the variable
found and the node whose text (its scalar, or else its dump) is passed. -/
def LoadFromYaml_round {Var : Type} (datas : List Char → Option Var)
    (i : List Char × YamlNode) : Option (List Char × Var × YamlNode) :=
  let key := i.1
  if key.isEmpty then none
  else
    let key1 := key.map tolower
    match LookupBase datas key1 with
    | some var => some (key1, var, i.2)
    | none => none

/-- The method `Config::LoadFromYaml`: the `fromString` calls it makes, in
order. -/
def LoadFromYaml {Var : Type} (datas : List Char → Option Var) (root : YamlNode) :
    List (List Char × Var × YamlNode) :=
  let all_nodes := ListAllMember [] root []
  all_nodes.filterMap (LoadFromYaml_round datas)

/-- The nodes reachable through map nodes, with their names: `Reach pfx node
name n` says that below the node `node` named `pfx` (itself included) there
is, through map nodes only, the node `n` with the dotted name `name`. -/
inductive Reach : List Char → YamlNode → List Char → YamlNode → Prop
  | here (pfx : List Char) (node : YamlNode) : Reach pfx node pfx node
  | step (pfx : List Char) (entries : List (List Char × YamlNode)) (key : List Char)
      (value : YamlNode) (name : List Char) (n : YamlNode) :
      (key, value) ∈ entries → Reach (memberName pfx key) value name n →
      Reach pfx (YamlNode.map entries) name n

/-- The configuration tree
`{system: {port: 8080, port9: 1, Name: x}, logs: [a]}`. -/
def yamlSystem : YamlNode :=
  YamlNode.map
    [("system".toList, YamlNode.map
        [("port".toList, YamlNode.scalar "8080".toList),
         ("port9".toList, YamlNode.map [("a".toList, YamlNode.scalar "1".toList)]),
         ("Name".toList, YamlNode.scalar "x".toList)]),
     ("logs".toList, YamlNode.sequence [YamlNode.scalar "a".toList])]

/-- The map under the key `system` of `yamlSystem`:
`{port: 8080, port9: {a: 1}, Name: x}`. -/
def yamlSystemNode : YamlNode :=
  YamlNode.map
    [("port".toList, YamlNode.scalar "8080".toList),
     ("port9".toList, YamlNode.map [("a".toList, YamlNode.scalar "1".toList)]),
     ("Name".toList, YamlNode.scalar "x".toList)]

/-- A table that registers every name, each as the variable `0`. -/
def datasAll : List Char → Option Nat := fun _ => some 0

/-! ## Factories -/

/-- Descriptor creation gives a valid socket exactly when the OS `socket`
call does not return `-1`. -/
theorem newSock_isValid (os : OS) (s : Socket) (w : World) :
    (s.newSock os w).1.m_sock = (os w (Call.socket s.m_family s.m_type s.m_protocol)).ret := by
  unfold Socket.newSock sys
  by_cases h : (os w (Call.socket s.m_family s.m_type s.m_protocol)).ret = -1
  · simp [h]
  · simp [h]

/-- The three datagram factories that allocate eagerly: when the OS `socket`
call succeeds, the socket is valid and connected. -/
theorem datagram_factories_valid_connected (os : OS) (w : World) (address : Address)
    (hok : ∀ f t p, (os w (Call.socket f t p)).ret ≠ -1) :
    ((CreateUDP os w address).1.isValid = true ∧ (CreateUDP os w address).1.isConnected = true)
    ∧ ((CreateUDPSocket os w).1.isValid = true ∧ (CreateUDPSocket os w).1.isConnected = true)
    ∧ ((CreateUDPSocket6 os w).1.isValid = true ∧ (CreateUDPSocket6 os w).1.isConnected = true) := by
  simp [CreateUDP, CreateUDPSocket, CreateUDPSocket6, Socket.isValid, Socket.isConnected,
    newSock_isValid, hok]

/-- The stream factories defer the descriptor: the socket is neither valid nor
connected. -/
theorem stream_factories_not_valid (address : Address) :
    ((CreateTCP address).isValid = false ∧ (CreateTCP address).isConnected = false)
    ∧ (CreateTCPSocket.isValid = false ∧ CreateTCPSocket.isConnected = false)
    ∧ (CreateTCPSocket6.isValid = false ∧ CreateTCPSocket6.isConnected = false)
    ∧ (CreateUnixTCPSocket.isValid = false ∧ CreateUnixTCPSocket.isConnected = false) := by
  simp [CreateTCP, CreateTCPSocket, CreateTCPSocket6, CreateUnixTCPSocket, Socket.new,
    Socket.isValid, Socket.isConnected, m_isConnected_default]

/-- C1 (fails on the code): the local-domain datagram factory
`CreateUnixUDPSocket` only constructs the object, so whatever the OS would
answer its socket has `isValid() = false` and `isConnected() = false`, unlike
the three other datagram factories, which allocate a descriptor and set the
connected flag. -/
theorem CreateUnixUDPSocket_not_valid_not_connected :
    CreateUnixUDPSocket.isValid = false ∧ CreateUnixUDPSocket.isConnected = false
    ∧ CreateUnixUDPSocket.m_type = UDP ∧ CreateUnixUDPSocket.m_family = UNIX := by
  simp [CreateUnixUDPSocket, Socket.new, Socket.isValid, Socket.isConnected,
    m_isConnected_default]

/-! ## close -/

/-- After `close` the descriptor is unset and the connected flag is false. -/
theorem close_state (os : OS) (s : Socket) (w : World) :
    (s.close os w).2.1.m_sock = -1 ∧ (s.close os w).2.1.m_isConnected = false := by
  unfold Socket.close
  by_cases h1 : s.m_isConnected = false <;> by_cases h2 : s.m_sock = -1 <;> simp [h1, h2]

/-- C2 (counterexample): on an open socket whose OS `close` fails, the first
`close()` returns false, not true. -/
theorem close_first_call_false_when_os_close_fails :
    (sockOpen3.close osAllFail []).1 = false
    ∧ (sockOpen3.close osAllFail []).2.2 = [Call.close 3] := by
  decide

/-- C2 (amended): for every socket state and every OS, the first `close()`
returns true exactly when the descriptor was already unset or the OS close
returned 0; the second `close()` always returns true, issues no OS call and
changes nothing; afterwards `isValid()` and `isConnected()` are false. -/
theorem close_twice (os : OS) (s : Socket) (w : World) :
    ((s.close os w).1 = true ↔ (s.m_sock = -1 ∨ (os w (Call.close s.m_sock)).ret = 0))
    ∧ ((s.close os w).2.1.close os (s.close os w).2.2).1 = true
    ∧ ((s.close os w).2.1.close os (s.close os w).2.2).2.2 = (s.close os w).2.2
    ∧ ((s.close os w).2.1.close os (s.close os w).2.2).2.1 = (s.close os w).2.1
    ∧ ((s.close os w).2.1.close os (s.close os w).2.2).2.1.isValid = false
    ∧ ((s.close os w).2.1.close os (s.close os w).2.2).2.1.isConnected = false := by
  have hc := close_state os s w
  have h2 : (s.close os w).2.1.close os (s.close os w).2.2
      = (true, (s.close os w).2.1, (s.close os w).2.2) := by
    generalize (s.close os w).2.1 = s1 at hc ⊢
    generalize (s.close os w).2.2 = w1
    unfold Socket.close
    simp [hc.1, hc.2]
  refine ⟨?_, ?_⟩
  · unfold Socket.close sys
    by_cases h1 : s.m_isConnected = false <;> by_cases h3 : s.m_sock = -1 <;> simp [h1, h3]
  · rw [h2]
    simp [Socket.isValid, Socket.isConnected, hc.1, hc.2]

/-! ## Transfers -/

/-- C3: on a socket that is not connected, each of the eight transfer
operations (scalar and vectored send, sendTo, recv, recvFrom), with any
arguments, returns -1, issues no OS call and leaves the socket unchanged. -/
theorem transfer_not_connected (os : OS) (s : Socket) (w : World)
    (h : s.isConnected = false) (buffer : List Nat) (buffers : List (List Nat))
    (caps : List Nat) (length : Nat) (peer : Address) (flags : Int) :
    s.send os w buffer length flags = (-1, s, w)
    ∧ s.sendv os w buffers length flags = (-1, s, w)
    ∧ s.sendTo os w buffer length peer flags = (-1, s, w)
    ∧ s.sendTov os w buffers length peer flags = (-1, s, w)
    ∧ s.recv os w length flags = (-1, s, w)
    ∧ s.recvv os w caps length flags = (-1, s, w)
    ∧ s.recvFrom os w length peer flags = (-1, s, w)
    ∧ s.recvFromv os w caps length peer flags = (-1, s, w) := by
  simp [Socket.send, Socket.sendv, Socket.sendTo, Socket.sendTov, Socket.recv, Socket.recvv,
    Socket.recvFrom, Socket.recvFromv, h]

/-- C3 (witness): a freshly created stream socket is not connected, and every
transfer on it returns -1 without a call, even where the OS would succeed. -/
theorem transfer_not_connected_witness :
    CreateTCPSocket.isConnected = false
    ∧ CreateTCPSocket.send osFd3 [] [1, 2] 2 0 = (-1, CreateTCPSocket, [])
    ∧ CreateTCPSocket.recvFromv osFd3 [] [8] 1 addrAny4 0 = (-1, CreateTCPSocket, []) :=
  have h := transfer_not_connected osFd3 CreateTCPSocket [] (by decide) [1, 2] [] [8] 2 addrAny4 0
  have h1 := transfer_not_connected osFd3 CreateTCPSocket [] (by decide) [1, 2] [] [8] 1 addrAny4 0
  ⟨by decide, h.1, h1.2.2.2.2.2.2.2⟩

/-! ## connect -/

/-- Descriptor creation changes only the descriptor. -/
theorem newSock_state (os : OS) (s : Socket) (w : World) :
    (s.newSock os w).1
      = { s with m_sock := (os w (Call.socket s.m_family s.m_type s.m_protocol)).ret } := by
  unfold Socket.newSock sys
  by_cases h : (os w (Call.socket s.m_family s.m_type s.m_protocol)).ret = -1
  · simp [h]
  · simp [h]

/-- A failing `connect_body` on an address of the socket's family ends in
`close`. -/
theorem connect_body_false_closed (os : OS) (s : Socket) (w : World) (addr : Address)
    (timeout_ms : Nat) (hfam : addr.getFamily = s.m_family)
    (hres : (s.connect_body os w addr timeout_ms).1 = false) :
    (s.connect_body os w addr timeout_ms).2.1.m_sock = -1
    ∧ (s.connect_body os w addr timeout_ms).2.1.m_isConnected = false := by
  unfold Socket.connect_body at hres ⊢
  simp only [hfam, ne_eq, not_true_eq_false, if_false] at hres ⊢
  generalize (if timeout_ms = NO_TIMEOUT then sys os w (Call.connect s.m_sock addr)
    else sys os w (Call.connect_with_timeout s.m_sock addr timeout_ms)) = r at hres ⊢
  by_cases hret : r.1.ret = 0
  · simp [hret] at hres
  · simp only [hret, not_false_eq_true, if_true]
    exact close_state os s r.2

/-- On a family mismatch `connect_body` returns false and does nothing. -/
theorem connect_body_mismatch (os : OS) (s : Socket) (w : World) (addr : Address)
    (timeout_ms : Nat) (hfam : addr.getFamily ≠ s.m_family) :
    s.connect_body os w addr timeout_ms = (false, s, w) := by
  unfold Socket.connect_body
  simp [hfam]

/-- A failing `connect_body` on an address of the socket's family, on a socket
that holds a descriptor, has closed that descriptor: `close` is its last
call. -/
theorem connect_body_false_world (os : OS) (s : Socket) (w : World) (addr : Address)
    (timeout_ms : Nat) (hfam : addr.getFamily = s.m_family) (hv : s.m_sock ≠ -1)
    (hres : (s.connect_body os w addr timeout_ms).1 = false) :
    ∃ w1, (s.connect_body os w addr timeout_ms).2.2 = w1 ++ [Call.close s.m_sock] := by
  unfold Socket.connect_body at hres ⊢
  simp only [hfam, ne_eq, not_true_eq_false, if_false] at hres ⊢
  generalize (if timeout_ms = NO_TIMEOUT then sys os w (Call.connect s.m_sock addr)
    else sys os w (Call.connect_with_timeout s.m_sock addr timeout_ms)) = r at hres ⊢
  by_cases hret : r.1.ret = 0
  · simp [hret] at hres
  · simp only [hret, not_false_eq_true, if_true]
    refine ⟨r.2, ?_⟩
    unfold Socket.close sys
    simp [hv]

/-- A failed descriptor creation issues `socket` only and leaves the
descriptor unset. -/
theorem newSock_failed (os : OS) (s : Socket) (w : World)
    (hr : (os w (Call.socket s.m_family s.m_type s.m_protocol)).ret = -1) :
    s.newSock os w
      = ({ s with m_sock := -1 }, w ++ [Call.socket s.m_family s.m_type s.m_protocol]) := by
  unfold Socket.newSock sys
  simp [hr]

/-- On a socket that holds a descriptor `connect` stores the address and goes
on to the family check. -/
theorem connect_of_valid (os : OS) (s : Socket) (w : World) (addr : Address)
    (timeout_ms : Nat) (hv : s.isValid = true) :
    s.connect os w addr timeout_ms
      = ({ s with m_remoteAddress := some addr } : Socket).connect_body os w addr timeout_ms := by
  have hv0 : ({ s with m_remoteAddress := some addr } : Socket).isValid = true := hv
  unfold Socket.connect
  simp only [hv0, Bool.true_eq_false, if_false]

/-- On a socket without descriptor whose creation fails, `connect` stores the
address, issues `socket` and returns false. -/
theorem connect_of_invalid_failed (os : OS) (s : Socket) (w : World) (addr : Address)
    (timeout_ms : Nat) (hv : s.isValid = false)
    (hr : (os w (Call.socket s.m_family s.m_type s.m_protocol)).ret = -1) :
    s.connect os w addr timeout_ms
      = (false, { s with m_remoteAddress := some addr },
         w ++ [Call.socket s.m_family s.m_type s.m_protocol]) := by
  have hv0 : ({ s with m_remoteAddress := some addr } : Socket).isValid = false := hv
  have hs : s.m_sock = -1 := by simpa [Socket.isValid] using hv
  have hn := newSock_failed os { s with m_remoteAddress := some addr } w hr
  unfold Socket.connect
  simp only [hv0, if_true, hn]
  simp [Socket.isValid, hs]

/-- On a socket without descriptor whose creation succeeds, `connect` stores
the address, creates the descriptor and goes on to the family check. -/
theorem connect_of_invalid_created (os : OS) (s : Socket) (w : World) (addr : Address)
    (timeout_ms : Nat) (hv : s.isValid = false)
    (hr : (os w (Call.socket s.m_family s.m_type s.m_protocol)).ret ≠ -1) :
    s.connect os w addr timeout_ms
      = (({ s with m_remoteAddress := some addr } : Socket).newSock os w).1.connect_body os
          (({ s with m_remoteAddress := some addr } : Socket).newSock os w).2 addr timeout_ms := by
  have hv0 : ({ s with m_remoteAddress := some addr } : Socket).isValid = false := hv
  have hn : (({ s with m_remoteAddress := some addr } : Socket).newSock os w).1.isValid = true := by
    rw [newSock_state]
    simpa [Socket.isValid] using hr
  unfold Socket.connect
  simp only [hv0, if_true, hn, Bool.true_eq_false, if_false]

/-- C4 (counterexample): two failing connects that do not leave the socket
unconnected and invalid.  An IPv4 datagram socket created with descriptor 3 is
valid and connected; `connect` to an IPv6 address returns false by the family
check, and the socket is still valid and connected afterwards.  An IPv4
datagram socket whose own descriptor creation failed is connected without a
descriptor; `connect` to an IPv4 address when `socket` fails again returns
false, and the socket is still connected afterwards. -/
theorem connect_false_leaves_socket_open_or_connected :
    (((CreateUDPSocket osFd3 []).1.connect osFd3 [] addrLoop6 NO_TIMEOUT).1 = false
      ∧ ((CreateUDPSocket osFd3 []).1.connect osFd3 [] addrLoop6 NO_TIMEOUT).2.1.isValid = true
      ∧ ((CreateUDPSocket osFd3 []).1.connect osFd3 [] addrLoop6 NO_TIMEOUT).2.1.isConnected
          = true
      ∧ ((CreateUDPSocket osFd3 []).1.connect osFd3 [] addrLoop6 NO_TIMEOUT).2.1.m_sock = 3)
    ∧ ((CreateUDPSocket osAllFail []).1.isValid = false
      ∧ (CreateUDPSocket osAllFail []).1.isConnected = true
      ∧ addrAny4.getFamily = (CreateUDPSocket osAllFail []).1.m_family
      ∧ ((CreateUDPSocket osAllFail []).1.connect osAllFail [] addrAny4 NO_TIMEOUT).1 = false
      ∧ ((CreateUDPSocket osAllFail []).1.connect osAllFail [] addrAny4 NO_TIMEOUT).2.1.isConnected
          = true
      ∧ ((CreateUDPSocket osAllFail []).1.connect osAllFail [] addrAny4 NO_TIMEOUT).2.2
          = [Call.socket 2 2 0]) := by
  decide

/-- C4 (amended): for every socket, every address and every timeout value.
If the address has the socket's family and `connect` returns false, then
afterwards `isValid()` is false.  When the failure is that of the plain or
timeout-bound OS connect (the socket held a descriptor or `socket` gave one),
`isConnected()` is false as well and the descriptor has been closed, `close`
being the last call.  When the failure is that of descriptor creation, the
only call is `socket` and the connected flag is left as it was; so in every
socket in which the connected flag implies a descriptor `isConnected()` is
false after any failing connect of the socket's family.  If the address has
another family, `connect` returns false at the family check without closing
anything: a socket that held a descriptor only stores the remote address and
issues no call; a socket without one has first created it, keeps what `socket`
returned and has issued only the calls of descriptor creation; the connected
flag is unchanged. -/
theorem connect_false_state (os : OS) (s : Socket) (w : World) (addr : Address)
    (timeout_ms : Nat) :
    (addr.getFamily = s.m_family → (s.connect os w addr timeout_ms).1 = false →
      (s.connect os w addr timeout_ms).2.1.isValid = false
      ∧ ((s.isValid = true ∨ (os w (Call.socket s.m_family s.m_type s.m_protocol)).ret ≠ -1) →
          (s.connect os w addr timeout_ms).2.1.isConnected = false
          ∧ ∃ w1, (s.connect os w addr timeout_ms).2.2
              = w1 ++ [Call.close (if s.isValid = true then s.m_sock
                  else (os w (Call.socket s.m_family s.m_type s.m_protocol)).ret)])
      ∧ ((s.isValid = false ∧ (os w (Call.socket s.m_family s.m_type s.m_protocol)).ret = -1) →
          (s.connect os w addr timeout_ms).2.1.isConnected = s.isConnected
          ∧ (s.connect os w addr timeout_ms).2.2
              = w ++ [Call.socket s.m_family s.m_type s.m_protocol])
      ∧ ((s.isConnected = true → s.isValid = true) →
          (s.connect os w addr timeout_ms).2.1.isConnected = false))
    ∧ (addr.getFamily ≠ s.m_family →
      (s.isValid = true →
          s.connect os w addr timeout_ms = (false, { s with m_remoteAddress := some addr }, w))
      ∧ (s.isValid = false →
          s.connect os w addr timeout_ms
            = (false, ({ s with m_remoteAddress := some addr } : Socket).newSock os w)
          ∧ (s.connect os w addr timeout_ms).2.1.m_sock
            = (os w (Call.socket s.m_family s.m_type s.m_protocol)).ret)
      ∧ (s.connect os w addr timeout_ms).2.1.m_isConnected = s.m_isConnected) := by
  by_cases hv : s.isValid = true
  · have hc := connect_of_valid os s w addr timeout_ms hv
    constructor
    · intro hfam hres
      rw [hc] at hres ⊢
      have hst := connect_body_false_closed os { s with m_remoteAddress := some addr } w addr
        timeout_ms hfam hres
      have hw := connect_body_false_world os { s with m_remoteAddress := some addr } w addr
        timeout_ms hfam (by simpa [Socket.isValid] using hv) hres
      refine ⟨by simp [Socket.isValid, hst.1], ?_, ?_, ?_⟩
      · intro _
        refine ⟨by simp [Socket.isConnected, hst.2], ?_⟩
        obtain ⟨w1, hw1⟩ := hw
        exact ⟨w1, by simp [hv, hw1]⟩
      · intro h
        rw [hv] at h
        exact absurd h.1 (by simp)
      · intro _
        simp [Socket.isConnected, hst.2]
    · intro hfam
      rw [hc, connect_body_mismatch os { s with m_remoteAddress := some addr } w addr
        timeout_ms hfam]
      refine ⟨fun _ => rfl, ?_, rfl⟩
      intro h
      rw [hv] at h
      exact absurd h (by simp)
  · have hv0 : s.isValid = false := by simpa using hv
    by_cases hr : (os w (Call.socket s.m_family s.m_type s.m_protocol)).ret = -1
    · have hc := connect_of_invalid_failed os s w addr timeout_ms hv0 hr
      constructor
      · intro _ _
        rw [hc]
        refine ⟨hv0, ?_, ?_, ?_⟩
        · rintro (h | h)
          · rw [hv0] at h
            exact absurd h (by simp)
          · exact absurd hr h
        · intro _
          exact ⟨rfl, rfl⟩
        · intro hinv
          cases hcon : s.isConnected with
          | false => exact hcon
          | true =>
            rw [hinv hcon] at hv0
            exact absurd hv0 (by simp)
      · intro _
        rw [hc]
        refine ⟨?_, ?_, rfl⟩
        · intro h
          rw [hv0] at h
          exact absurd h (by simp)
        · intro _
          refine ⟨?_, ?_⟩
          · have hn := newSock_failed os { s with m_remoteAddress := some addr } w hr
            rw [hn]
            have hs : s.m_sock = -1 := by simpa [Socket.isValid] using hv0
            simp [hs]
          · have hs : s.m_sock = -1 := by simpa [Socket.isValid] using hv0
            simp [hs, hr]
    · have hc := connect_of_invalid_created os s w addr timeout_ms hv0 hr
      have hn := newSock_state os { s with m_remoteAddress := some addr } w
      constructor
      · intro hfam hres
        rw [hc] at hres ⊢
        have hst := connect_body_false_closed os
          (({ s with m_remoteAddress := some addr } : Socket).newSock os w).1
          (({ s with m_remoteAddress := some addr } : Socket).newSock os w).2 addr timeout_ms
          (by rw [hn]; exact hfam) hres
        have hw := connect_body_false_world os
          (({ s with m_remoteAddress := some addr } : Socket).newSock os w).1
          (({ s with m_remoteAddress := some addr } : Socket).newSock os w).2 addr timeout_ms
          (by rw [hn]; exact hfam) (by rw [hn]; exact hr) hres
        have hfd : (({ s with m_remoteAddress := some addr } : Socket).newSock os w).1.m_sock
            = (os w (Call.socket s.m_family s.m_type s.m_protocol)).ret := by rw [hn]
        refine ⟨by simp [Socket.isValid, hst.1], ?_, ?_, ?_⟩
        · intro _
          refine ⟨by simp [Socket.isConnected, hst.2], ?_⟩
          obtain ⟨w1, hw1⟩ := hw
          rw [hfd] at hw1
          exact ⟨w1, by simp [hv0, hw1]⟩
        · intro h
          exact absurd h.2 hr
        · intro _
          simp [Socket.isConnected, hst.2]
      · intro hfam
        rw [hc]
        have hm := connect_body_mismatch os
          (({ s with m_remoteAddress := some addr } : Socket).newSock os w).1
          (({ s with m_remoteAddress := some addr } : Socket).newSock os w).2 addr timeout_ms
          (by rw [hn]; exact hfam)
        rw [hm]
        refine ⟨?_, ?_, ?_⟩
        · intro h
          rw [hv0] at h
          exact absurd h (by simp)
        · intro _
          exact ⟨rfl, by rw [hn]⟩
        · rw [hn]

/-- C4 (witness): a fresh IPv4 stream socket gets descriptor 3 and the OS
connect fails: `connect` returns false, has closed descriptor 3 and leaves the
socket unconnected and invalid, with and without a timeout.  Given an IPv6
address, an open socket only stores the address, and a fresh socket creates
descriptor 3 and keeps it open.  A datagram socket that is connected without a
descriptor stays connected when `socket` fails again. -/
theorem connect_false_state_witness :
    (addrPeer4.getFamily = CreateTCPSocket.m_family
      ∧ (CreateTCPSocket.connect osConnectFails [] addrPeer4 50).1 = false
      ∧ (CreateTCPSocket.connect osConnectFails [] addrPeer4 50).2.2
          = [Call.socket 2 1 0, Call.setsockopt 3 1 2 [1], Call.setsockopt 3 6 1 [1],
             Call.connect_with_timeout 3 addrPeer4 50, Call.close 3]
      ∧ (CreateTCPSocket.connect osConnectFails [] addrPeer4 50).2.1.isValid = false
      ∧ (CreateTCPSocket.connect osConnectFails [] addrPeer4 50).2.1.isConnected = false)
    ∧ ((sockOpen3.connect osConnectFails [] addrPeer4 NO_TIMEOUT).2.2
          = [Call.connect 3 addrPeer4, Call.close 3]
      ∧ (sockOpen3.connect osConnectFails [] addrPeer4 NO_TIMEOUT).2.1.isValid = false
      ∧ (sockOpen3.connect osConnectFails [] addrPeer4 NO_TIMEOUT).2.1.isConnected = false)
    ∧ (sockOpen3.connect osFd3 [] addrLoop6 50
          = (false, { sockOpen3 with m_remoteAddress := some addrLoop6 }, [])
      ∧ (CreateTCPSocket.connect osFd3 [] addrLoop6 50).2.1.m_sock = 3
      ∧ (CreateTCPSocket.connect osFd3 [] addrLoop6 50).2.2
          = [Call.socket 2 1 0, Call.setsockopt 3 1 2 [1], Call.setsockopt 3 6 1 [1]])
    ∧ ((CreateUDPSocket osAllFail []).1.connect osAllFail [] addrAny4 50).2.1.isConnected
        = (CreateUDPSocket osAllFail []).1.isConnected :=
  have h1 := (connect_false_state osConnectFails CreateTCPSocket [] addrPeer4 50).1
    (by decide) (by decide)
  have h2 := (connect_false_state osConnectFails sockOpen3 [] addrPeer4 NO_TIMEOUT).1
    (by decide) (by decide)
  have h3 := (connect_false_state osFd3 sockOpen3 [] addrLoop6 50).2 (by decide)
  have h4 := (connect_false_state osFd3 CreateTCPSocket [] addrLoop6 50).2 (by decide)
  have h5 := (connect_false_state osAllFail (CreateUDPSocket osAllFail []).1 [] addrAny4 50).1
    (by decide) (by decide)
  ⟨⟨by decide, by decide, by decide, h1.1, (h1.2.1 (Or.inr (by decide))).1⟩,
    ⟨by decide, h2.1, (h2.2.1 (Or.inl (by decide))).1⟩,
    ⟨h3.1 (by decide), (h4.2.1 (by decide)).2, by decide⟩,
    (h5.2.2.1 ⟨by decide, by decide⟩).1⟩

/-! ## bind -/

/-- The calls of descriptor creation do not depend on the address caches. -/
theorem newSock_world_eq (os : OS) (s t : Socket) (w : World)
    (hf : s.m_family = t.m_family) (ht : s.m_type = t.m_type)
    (hp : s.m_protocol = t.m_protocol) :
    (s.newSock os w).2 = (t.newSock os w).2 := by
  unfold Socket.newSock Socket.initSock Socket.setOption sys
  rw [hf, ht, hp]
  by_cases h : (os w (Call.socket t.m_family t.m_type t.m_protocol)).ret = -1
  · simp [h]
  · simp [h]

/-- On a family mismatch `bind_body` returns false and does nothing. -/
theorem bind_body_mismatch (os : OS) (s : Socket) (w : World) (addr : Address)
    (hfam : addr.getFamily ≠ s.m_family) :
    s.bind_body os w addr = (false, s, w) := by
  unfold Socket.bind_body
  simp [hfam]

/-- With the local address cache filled, `bind_body` never changes the socket:
its closing `getLocalAddress()` finds the cache and queries nothing. -/
theorem bind_body_cached (os : OS) (s : Socket) (w : World) (addr a : Address)
    (hloc : s.m_localAddress = some a) :
    (s.bind_body os w addr).2.1 = s := by
  unfold Socket.bind_body
  by_cases hfam : addr.getFamily = s.m_family
  · simp only [hfam, ne_eq, not_true_eq_false, if_false]
    generalize (if addr.cls = AddrClass.UnixAddress then Socket.bind_probe os w addr
      else (false, w)) = p
    by_cases hp : p.1 = true
    · simp [hp]
    · simp only [hp, if_false]
      by_cases hr : (sys os p.2 (Call.bind s.m_sock addr)).1.ret = 0
      · simp [hr, Socket.getLocalAddress, hloc]
      · simp [hr]
  · simp [hfam]

/-- Whatever `bind` returns, the cached local address afterwards is the
caller's input address, and `getLocalAddress()` returns it without a query. -/
theorem bind_caches_input (os : OS) (s : Socket) (w : World) (addr : Address) :
    (s.bind os w addr).2.1.m_localAddress = some addr
    ∧ ∀ w1, (s.bind os w addr).2.1.getLocalAddress os w1
        = (addr, (s.bind os w addr).2.1, w1) := by
  have key : (s.bind os w addr).2.1.m_localAddress = some addr := by
    unfold Socket.bind
    by_cases hv : s.m_sock = -1
    · simp only [Socket.isValid, hv, ne_eq, not_true_eq_false, decide_False, if_true]
      rw [newSock_state]
      by_cases hr : (os w (Call.socket s.m_family s.m_type s.m_protocol)).ret = -1
      · simp [hr]
      · simp only [hr, not_false_eq_true, decide_True, Bool.true_eq_false, if_false]
        rw [bind_body_cached os _ _ addr addr rfl]
    · simp only [Socket.isValid, hv, ne_eq, not_false_eq_true, decide_True, Bool.true_eq_false,
        if_false]
      rw [bind_body_cached os _ _ addr addr rfl]
  refine ⟨key, fun w1 => ?_⟩
  unfold Socket.getLocalAddress
  rw [key]

/-- C5 (counterexample): a fresh IPv4 stream socket bound to an IPv6 address:
`bind` returns false, but it has called `socket` and `setsockopt`, the socket
now holds descriptor 3, and the cached local address is the rejected input. -/
theorem bind_mismatch_allocates_descriptor :
    (CreateTCPSocket.bind osFd3 [] addrLoop6).1 = false
    ∧ CreateTCPSocket.m_sock = -1
    ∧ (CreateTCPSocket.bind osFd3 [] addrLoop6).2.1.m_sock = 3
    ∧ (CreateTCPSocket.bind osFd3 [] addrLoop6).2.2
        = [Call.socket 2 1 0, Call.setsockopt 3 1 2 [1], Call.setsockopt 3 6 1 [1]]
    ∧ CreateTCPSocket.m_localAddress = none
    ∧ (CreateTCPSocket.bind osFd3 [] addrLoop6).2.1.m_localAddress = some addrLoop6 := by
  decide

/-- C5 (amended): for every socket and every address whose family differs from
the socket's, `bind` returns false and leaves the family, kind, protocol,
connected flag and cached remote address as they were; a socket that already
holds a descriptor keeps it and no OS call is attempted; a socket without one
first creates it, so the descriptor is what `socket` returned and the only
calls issued are those of descriptor creation. -/
theorem bind_mismatch (os : OS) (s : Socket) (w : World) (addr : Address)
    (hfam : addr.getFamily ≠ s.m_family) :
    (s.bind os w addr).1 = false
    ∧ (s.bind os w addr).2.1.m_family = s.m_family
    ∧ (s.bind os w addr).2.1.m_type = s.m_type
    ∧ (s.bind os w addr).2.1.m_protocol = s.m_protocol
    ∧ (s.bind os w addr).2.1.m_isConnected = s.m_isConnected
    ∧ (s.bind os w addr).2.1.m_remoteAddress = s.m_remoteAddress
    ∧ (s.isValid = true →
        (s.bind os w addr).2.1.m_sock = s.m_sock ∧ (s.bind os w addr).2.2 = w)
    ∧ (s.isValid = false →
        (s.bind os w addr).2.1.m_sock = (os w (Call.socket s.m_family s.m_type s.m_protocol)).ret
        ∧ (s.bind os w addr).2.2 = (s.newSock os w).2) := by
  unfold Socket.bind
  by_cases hv : s.m_sock = -1
  · simp only [Socket.isValid, hv, ne_eq, not_true_eq_false, decide_False, if_true]
    have hw := newSock_world_eq os
      { s with m_sock := -1, m_localAddress := some addr } s w rfl rfl rfl
    rw [newSock_state]
    by_cases hr : (os w (Call.socket s.m_family s.m_type s.m_protocol)).ret = -1
    · simp [hr, hw]
    · simp only [hr, not_false_eq_true, decide_True, Bool.true_eq_false, if_false]
      rw [bind_body_mismatch _ _ _ _ (by simpa using hfam)]
      simp [hw]
  · simp only [Socket.isValid, hv, ne_eq, not_false_eq_true, decide_True, Bool.true_eq_false,
      if_false]
    rw [bind_body_mismatch _ _ _ _ (by simpa using hfam)]
    simp

/-- C5 (witness): an open IPv4 socket on descriptor 3 bound to an IPv6
address: false, descriptor kept, no call. -/
theorem bind_mismatch_witness :
    addrLoop6.getFamily ≠ sockOpen3.m_family
    ∧ (sockOpen3.bind osFd3 [] addrLoop6).1 = false
    ∧ (sockOpen3.bind osFd3 [] addrLoop6).2.1.m_sock = 3
    ∧ (sockOpen3.bind osFd3 [] addrLoop6).2.2 = [] :=
  have h := bind_mismatch osFd3 sockOpen3 [] addrLoop6 (by decide)
  have h3 := h.2.2.2.2.2.2.1 (by decide)
  ⟨by decide, h.1, h3.1, h3.2⟩

/-- C6 (fails on the code): a fresh IPv4 stream socket is bound to the
wildcard address `0.0.0.0:0` and the OS assigns port 40000.  `bind` returns
true, yet it never queried `getsockname`: the cached local address is the
caller's input, `getLocalAddress()` returns that input without a query, and it
differs from the address the OS reports for the descriptor. -/
theorem bind_wildcard_port_keeps_input_address :
    (CreateTCPSocket.bind osPort40000 [] addrAny4).1 = true
    ∧ (CreateTCPSocket.bind osPort40000 [] addrAny4).2.2
        = [Call.socket 2 1 0, Call.setsockopt 3 1 2 [1], Call.setsockopt 3 6 1 [1],
           Call.bind 3 addrAny4]
    ∧ (CreateTCPSocket.bind osPort40000 [] addrAny4).2.1.m_localAddress = some addrAny4
    ∧ ((CreateTCPSocket.bind osPort40000 [] addrAny4).2.1.getLocalAddress osPort40000
          (CreateTCPSocket.bind osPort40000 [] addrAny4).2.2).1 = addrAny4
    ∧ resolvedAddress AF_INET
          (osPort40000 (CreateTCPSocket.bind osPort40000 [] addrAny4).2.2 (Call.getsockname 3 16))
        = { cls := AddrClass.IPv4Address, family := AF_INET, data := [156, 64, 0, 0, 0, 0],
            len := 16 }
    ∧ resolvedAddress AF_INET
          (osPort40000 (CreateTCPSocket.bind osPort40000 [] addrAny4).2.2 (Call.getsockname 3 16))
        ≠ addrAny4 := by
  decide

/-! ## reconnect -/

/-- Conversion to `int` keeps a value that fits in 32 bits. -/
theorem toInt32_of_fits (x : Int) (h0 : -2 ^ 31 ≤ x) (h1 : x < 2 ^ 31) : toInt32 x = x := by
  unfold toInt32
  norm_num at h0 h1 ⊢
  omega

/-- The `timeval` of a millisecond count in range. -/
theorem timevalOf_in_range (v : Int) (h0 : 0 ≤ v) (h1 : v < 2 ^ 31 * 1000) :
    timevalOf v = (v / 1000, v % 1000 * 1000) := by
  unfold timevalOf
  have hd : Int.tdiv v 1000 = v / 1000 := Int.tdiv_eq_ediv h0 (by norm_num)
  have hm : Int.tmod v 1000 = v % 1000 := Int.tmod_eq_emod h0 (by norm_num)
  norm_num at h1
  rw [hd, hm, toInt32_of_fits, toInt32_of_fits] <;> norm_num <;> omega

/-- C9: for every millisecond count `v` with `0 ≤ v < 2^31 * 1000`,
`setSendTimeout(v)` and `setRecvTimeout(v)` issue exactly one call,
`setsockopt` on the socket's descriptor at `SOL_SOCKET` with `SO_SNDTIMEO`,
respectively `SO_RCVTIMEO`, and the pair (seconds, microseconds) with
seconds = v / 1000 and microseconds = (v mod 1000) * 1000; so
0 ≤ microseconds < 1000000 and seconds * 1000 + microseconds / 1000 = v. -/
theorem set_timeout_conversion (os : OS) (s : Socket) (w : World) (v : Int)
    (h0 : 0 ≤ v) (h1 : v < 2 ^ 31 * 1000) :
    s.setSendTimeout os w v
      = w ++ [Call.setsockopt s.m_sock SOL_SOCKET SO_SNDTIMEO [v / 1000, v % 1000 * 1000]]
    ∧ s.setRecvTimeout os w v
      = w ++ [Call.setsockopt s.m_sock SOL_SOCKET SO_RCVTIMEO [v / 1000, v % 1000 * 1000]]
    ∧ 0 ≤ (timevalOf v).2 ∧ (timevalOf v).2 < 1000000
    ∧ (timevalOf v).1 * 1000 + (timevalOf v).2 / 1000 = v := by
  have ht := timevalOf_in_range v h0 h1
  refine ⟨?_, ?_, ?_, ?_, ?_⟩
  · simp [Socket.setSendTimeout, Socket.setOption, sys, ht]
  · simp [Socket.setRecvTimeout, Socket.setOption, sys, ht]
  · rw [ht]; simp only; omega
  · rw [ht]; simp only; omega
  · rw [ht]; simp only; omega

/-- C9 (witness): 1500 ms becomes 1 s and 500000 µs, and the largest count in
range, 2147483647999 ms, becomes 2147483647 s and 999000 µs. -/
theorem set_timeout_conversion_witness :
    sockOpen3.setSendTimeout osFd3 [] 1500 = [Call.setsockopt 3 1 21 [1, 500000]]
    ∧ sockOpen3.setRecvTimeout osFd3 [] 2147483647999
        = [Call.setsockopt 3 1 20 [2147483647, 999000]] :=
  ⟨(set_timeout_conversion osFd3 sockOpen3 [] 1500 (by decide) (by decide)).1,
    (set_timeout_conversion osFd3 sockOpen3 [] 2147483647999 (by decide) (by decide)).2.1⟩

/-! ## The connected flag implies a descriptor -/

/-- The address getters touch neither the descriptor nor the connected flag. -/
theorem getLocalAddress_fields (os : OS) (s : Socket) (w : World) :
    (s.getLocalAddress os w).2.1.m_sock = s.m_sock
    ∧ (s.getLocalAddress os w).2.1.m_isConnected = s.m_isConnected := by
  unfold Socket.getLocalAddress
  cases hl : s.m_localAddress with
  | some a => simp
  | none =>
    by_cases hr : (sys os w (Call.getsockname s.m_sock (emptyAddress s.m_family).getAddrLen)).1.ret = 0
    · simp [hr]
    · simp [hr]

/-- The same for the remote address. -/
theorem getRemoteAddress_fields (os : OS) (s : Socket) (w : World) :
    (s.getRemoteAddress os w).2.1.m_sock = s.m_sock
    ∧ (s.getRemoteAddress os w).2.1.m_isConnected = s.m_isConnected := by
  unfold Socket.getRemoteAddress
  cases hl : s.m_remoteAddress with
  | some a => simp
  | none =>
    by_cases hr : (sys os w (Call.getpeername s.m_sock (emptyAddress s.m_family).getAddrLen)).1.ret = 0
    · simp [hr]
    · simp [hr]

/-- On a socket with a descriptor `connect_body` keeps the invariant. -/
theorem connect_body_inv (os : OS) (s : Socket) (w : World) (addr : Address)
    (timeout_ms : Nat) (hv : s.m_sock ≠ -1) :
    (s.connect_body os w addr timeout_ms).2.1.m_isConnected = true →
    (s.connect_body os w addr timeout_ms).2.1.m_sock ≠ -1 := by
  unfold Socket.connect_body
  by_cases hfam : addr.getFamily = s.m_family
  · simp only [hfam, ne_eq, not_true_eq_false, if_false]
    generalize (if timeout_ms = NO_TIMEOUT then sys os w (Call.connect s.m_sock addr)
      else sys os w (Call.connect_with_timeout s.m_sock addr timeout_ms)) = r
    by_cases hret : r.1.ret = 0
    · simp only [hret, not_true_eq_false, if_false]
      intro _
      rw [(getLocalAddress_fields os _ _).1, (getRemoteAddress_fields os _ _).1]
      exact hv
    · simp only [hret, not_false_eq_true, if_true]
      intro hc
      rw [(close_state os s r.2).2] at hc
      exact absurd hc (by simp)
  · simp only [ne_eq, hfam, not_false_eq_true, if_true]
    intro _
    exact hv

/-- The method `connect` keeps the invariant. -/
theorem connect_inv (os : OS) (s : Socket) (w : World) (addr : Address) (timeout_ms : Nat)
    (hinv : s.m_isConnected = true → s.m_sock ≠ -1) :
    (s.connect os w addr timeout_ms).2.1.m_isConnected = true →
    (s.connect os w addr timeout_ms).2.1.m_sock ≠ -1 := by
  unfold Socket.connect
  by_cases hv : s.m_sock = -1
  · simp only [Socket.isValid, hv, ne_eq, not_true_eq_false, decide_False, if_true]
    rw [newSock_state]
    by_cases hr : (os w (Call.socket s.m_family s.m_type s.m_protocol)).ret = -1
    · simp only [hr, not_true_eq_false, decide_False, if_true]
      intro hc
      exact absurd hv (hinv hc)
    · simp only [hr, not_false_eq_true, decide_True, Bool.true_eq_false, if_false]
      exact connect_body_inv os _ _ addr timeout_ms hr
  · simp only [Socket.isValid, hv, ne_eq, not_false_eq_true, decide_True, Bool.true_eq_false,
      if_false]
    exact connect_body_inv os _ _ addr timeout_ms hv

/-- The method `bind` keeps the invariant. -/
theorem bind_inv (os : OS) (s : Socket) (w : World) (addr : Address)
    (hinv : s.m_isConnected = true → s.m_sock ≠ -1) :
    (s.bind os w addr).2.1.m_isConnected = true → (s.bind os w addr).2.1.m_sock ≠ -1 := by
  unfold Socket.bind
  by_cases hv : s.m_sock = -1
  · simp only [Socket.isValid, hv, ne_eq, not_true_eq_false, decide_False, if_true]
    rw [newSock_state]
    by_cases hr : (os w (Call.socket s.m_family s.m_type s.m_protocol)).ret = -1
    · simp only [hr, not_true_eq_false, decide_False, if_true]
      intro hc
      exact absurd hv (hinv hc)
    · simp only [hr, not_false_eq_true, decide_True, Bool.true_eq_false, if_false]
      rw [bind_body_cached os _ _ addr addr rfl]
      intro _
      exact hr
  · simp only [Socket.isValid, hv, ne_eq, not_false_eq_true, decide_True, Bool.true_eq_false,
      if_false]
    rw [bind_body_cached os _ _ addr addr rfl]
    intro _
    exact hv

/-- A socket set up by `init` holds the descriptor it was given. -/
theorem init_sock (os : OS) (s : Socket) (w : World) (sock : Int)
    (h : (s.init os w sock).1 = true) : (s.init os w sock).2.1.m_sock = sock := by
  unfold Socket.init at h ⊢
  cases hctx : (sys os w (Call.fdmgr_get sock)).1.ctx with
  | none => simp [hctx] at h
  | some ctx =>
    simp only [hctx] at h ⊢
    by_cases hc : ctx.isSocket = true ∧ ctx.isClose = false
    · simp only [hc, and_self, if_true]
      rw [(getRemoteAddress_fields os _ _).1, (getLocalAddress_fields os _ _).1]
    · simp [hc] at h

/-- A socket returned by `accept` holds a descriptor. -/
theorem accept_sock (os : OS) (s : Socket) (w : World) (accepted : Socket)
    (h : (s.accept os w).1 = some accepted) : accepted.m_sock ≠ -1 := by
  unfold Socket.accept at h
  by_cases hn : (sys os w (Call.accept s.m_sock)).1.ret = -1
  · simp [hn] at h
  · simp only [hn, if_false] at h
    by_cases hi : ((Socket.new s.m_family s.m_type s.m_protocol).init os
        (sys os w (Call.accept s.m_sock)).2 (sys os w (Call.accept s.m_sock)).1.ret).1 = true
    · simp only [hi, if_true, Option.some.injEq] at h
      rw [← h, init_sock os _ _ _ hi]
      exact hn
    · simp [hi] at h

/-- C10: in every socket state reachable from any factory by any sequence of
public operations (bind, connect, reconnect, listen, accept, close, the eight
transfers, the address getters) under arbitrary OS outcomes, provided the
descriptor creation inside the datagram factories succeeded,
`isConnected() = true` implies `isValid() = true`. -/
theorem reachable_connected_valid (os : OS) (s : Socket) (h : Reachable os s) :
    s.isConnected = true → s.isValid = true := by
  have key : s.m_isConnected = true → s.m_sock ≠ -1 := by
    induction h with
    | byCreateTCP address => simp [CreateTCP, Socket.new, m_isConnected_default]
    | byCreateUDP w address hok =>
      intro _
      simpa [CreateUDP, newSock_isValid, Socket.new] using hok
    | byCreateTCPSocket => simp [CreateTCPSocket, Socket.new, m_isConnected_default]
    | byCreateUDPSocket w hok =>
      intro _
      simpa [CreateUDPSocket, newSock_isValid, Socket.new] using hok
    | byCreateTCPSocket6 => simp [CreateTCPSocket6, Socket.new, m_isConnected_default]
    | byCreateUDPSocket6 w hok =>
      intro _
      simpa [CreateUDPSocket6, newSock_isValid, Socket.new] using hok
    | byCreateUnixTCPSocket => simp [CreateUnixTCPSocket, Socket.new, m_isConnected_default]
    | byCreateUnixUDPSocket => simp [CreateUnixUDPSocket, Socket.new, m_isConnected_default]
    | bind s w addr _ ih => exact bind_inv os s w addr ih
    | connect s w addr t _ ih => exact connect_inv os s w addr t ih
    | reconnect s w t _ ih =>
      unfold Socket.reconnect
      cases hr : s.m_remoteAddress with
      | none => simpa using ih
      | some r => exact connect_inv os _ w r t ih
    | listen s w backlog _ ih =>
      unfold Socket.listen
      by_cases hv : s.isValid = false
      · simpa [hv] using ih
      · by_cases hr : (sys os w (Call.listen s.m_sock backlog)).1.ret = 0
        · simpa [hv, hr] using ih
        · simpa [hv, hr] using ih
    | accept s w accepted _ hacc _ =>
      intro _
      exact accept_sock os s w accepted hacc
    | close s w _ _ =>
      intro hc
      rw [(close_state os s w).2] at hc
      exact absurd hc (by simp)
    | send s w buffer length flags _ ih =>
      unfold Socket.send
      by_cases hc : s.isConnected = true
      · simpa [hc] using ih
      · simpa [hc] using ih
    | sendv s w buffers length flags _ ih =>
      unfold Socket.sendv
      by_cases hc : s.isConnected = true
      · simpa [hc] using ih
      · simpa [hc] using ih
    | sendTo s w buffer length dest flags _ ih =>
      unfold Socket.sendTo
      by_cases hc : s.isConnected = true
      · simpa [hc] using ih
      · simpa [hc] using ih
    | sendTov s w buffers length dest flags _ ih =>
      unfold Socket.sendTov
      by_cases hc : s.isConnected = true
      · simpa [hc] using ih
      · simpa [hc] using ih
    | recv s w length flags _ ih =>
      unfold Socket.recv
      by_cases hc : s.isConnected = true
      · simpa [hc] using ih
      · simpa [hc] using ih
    | recvv s w buffers length flags _ ih =>
      unfold Socket.recvv
      by_cases hc : s.isConnected = true
      · simpa [hc] using ih
      · simpa [hc] using ih
    | recvFrom s w length src flags _ ih =>
      unfold Socket.recvFrom
      by_cases hc : s.isConnected = true
      · simpa [hc] using ih
      · simpa [hc] using ih
    | recvFromv s w buffers length src flags _ ih =>
      unfold Socket.recvFromv
      by_cases hc : s.isConnected = true
      · simpa [hc] using ih
      · simpa [hc] using ih
    | getLocalAddress s w _ ih =>
      rw [(getLocalAddress_fields os s w).1, (getLocalAddress_fields os s w).2]
      exact ih
    | getRemoteAddress s w _ ih =>
      rw [(getRemoteAddress_fields os s w).1, (getRemoteAddress_fields os s w).2]
      exact ih
  intro hc
  simpa [Socket.isValid] using key hc

/-- C10 (witness): the IPv4 datagram socket created on descriptor 3, then
connected to a peer, is reachable, connected and valid. -/
theorem reachable_connected_valid_witness :
    Reachable osFd3 ((CreateUDPSocket osFd3 []).1.connect osFd3 [] addrPeer4 NO_TIMEOUT).2.1
    ∧ ((CreateUDPSocket osFd3 []).1.connect osFd3 [] addrPeer4 NO_TIMEOUT).2.1.isConnected = true
    ∧ ((CreateUDPSocket osFd3 []).1.connect osFd3 [] addrPeer4 NO_TIMEOUT).2.1.isValid = true :=
  have hr : Reachable osFd3
      ((CreateUDPSocket osFd3 []).1.connect osFd3 [] addrPeer4 NO_TIMEOUT).2.1 :=
    Reachable.connect _ [] addrPeer4 NO_TIMEOUT (Reachable.byCreateUDPSocket [] (by decide))
  ⟨hr, by decide, reachable_connected_valid osFd3 _ hr (by decide)⟩

/-! ## Listing the members of a configuration tree -/

/-- The search finds nothing exactly when every character is in the set. -/
theorem find_first_not_of_eq_none (s chars : List Char) :
    find_first_not_of s chars = none ↔ ∀ c ∈ s, c ∈ chars := by
  induction s with
  | nil => simp [find_first_not_of]
  | cons c s ih =>
    unfold find_first_not_of
    by_cases hc : c ∈ chars
    · simp [hc, ih]
    · simp [hc]

/-- A name with a character outside the set stops `ListAllMember` at once. -/
theorem ListAllMember_invalid (pfx : List Char) (node : YamlNode)
    (output : List (List Char × YamlNode))
    (h : find_first_not_of pfx validNameChars ≠ none) :
    ListAllMember pfx node output = output := by
  unfold ListAllMember
  have : (find_first_not_of pfx validNameChars).isSome = true := by
    cases hf : find_first_not_of pfx validNameChars with
    | none => exact absurd hf h
    | some i => rfl
  simp [this]

/-- With a valid name a map node is listed and then its entries are walked. -/
theorem ListAllMember_map (pfx : List Char) (entries : List (List Char × YamlNode))
    (output : List (List Char × YamlNode))
    (h : find_first_not_of pfx validNameChars = none) :
    ListAllMember pfx (YamlNode.map entries) output
      = ListAllMember_loop entries pfx (output ++ [(pfx, YamlNode.map entries)]) := by
  unfold ListAllMember
  simp [h]

/-- With a valid name a node that is not a map is listed, and that is all. -/
theorem ListAllMember_leaf (pfx : List Char) (node : YamlNode)
    (output : List (List Char × YamlNode))
    (h : find_first_not_of pfx validNameChars = none) (hm : node.IsMap = false) :
    ListAllMember pfx node output = output ++ [(pfx, node)] := by
  unfold ListAllMember
  cases node with
  | map entries => simp [YamlNode.IsMap] at hm
  | null => simp [h]
  | scalar v => simp [h]
  | sequence items => simp [h]

/-- The loop over no entries. -/
theorem ListAllMember_loop_nil (pfx : List Char) (output : List (List Char × YamlNode)) :
    ListAllMember_loop [] pfx output = output := by
  unfold ListAllMember_loop
  rfl

/-- The loop over a first entry and the rest. -/
theorem ListAllMember_loop_cons (key : List Char) (value : YamlNode)
    (rest : List (List Char × YamlNode)) (pfx : List Char)
    (output : List (List Char × YamlNode)) :
    ListAllMember_loop ((key, value) :: rest) pfx output
      = ListAllMember_loop rest pfx (ListAllMember (memberName pfx key) value output) := by
  rw [ListAllMember_loop]

mutual
/-- The function `ListAllMember` only appends to `output`. -/
theorem ListAllMember_append : ∀ (node : YamlNode) (pfx : List Char)
    (output : List (List Char × YamlNode)),
    ListAllMember pfx node output = output ++ ListAllMember pfx node []
  | YamlNode.map entries, pfx, output => by
    by_cases h : find_first_not_of pfx validNameChars = none
    · rw [ListAllMember_map _ _ _ h, ListAllMember_map _ _ _ h,
        ListAllMember_loop_append entries pfx (output ++ [(pfx, YamlNode.map entries)]),
        ListAllMember_loop_append entries pfx ([] ++ [(pfx, YamlNode.map entries)])]
      simp
    · rw [ListAllMember_invalid _ _ _ h, ListAllMember_invalid _ _ _ h]
      simp
  | YamlNode.null, pfx, output => by
    by_cases h : find_first_not_of pfx validNameChars = none
    · rw [ListAllMember_leaf pfx YamlNode.null output h rfl,
        ListAllMember_leaf pfx YamlNode.null [] h rfl]
      simp
    · rw [ListAllMember_invalid _ _ _ h, ListAllMember_invalid _ _ _ h]
      simp
  | YamlNode.scalar v, pfx, output => by
    by_cases h : find_first_not_of pfx validNameChars = none
    · rw [ListAllMember_leaf pfx (YamlNode.scalar v) output h rfl,
        ListAllMember_leaf pfx (YamlNode.scalar v) [] h rfl]
      simp
    · rw [ListAllMember_invalid _ _ _ h, ListAllMember_invalid _ _ _ h]
      simp
  | YamlNode.sequence items, pfx, output => by
    by_cases h : find_first_not_of pfx validNameChars = none
    · rw [ListAllMember_leaf pfx (YamlNode.sequence items) output h rfl,
        ListAllMember_leaf pfx (YamlNode.sequence items) [] h rfl]
      simp
    · rw [ListAllMember_invalid _ _ _ h, ListAllMember_invalid _ _ _ h]
      simp
/-- The loop of `ListAllMember` only appends to `output`. -/
theorem ListAllMember_loop_append : ∀ (entries : List (List Char × YamlNode))
    (pfx : List Char) (output : List (List Char × YamlNode)),
    ListAllMember_loop entries pfx output = output ++ ListAllMember_loop entries pfx []
  | [], pfx, output => by
    rw [ListAllMember_loop_nil, ListAllMember_loop_nil]
    simp
  | (key, value) :: rest, pfx, output => by
    rw [ListAllMember_loop_cons, ListAllMember_loop_cons,
      ListAllMember_loop_append rest pfx (ListAllMember (memberName pfx key) value output),
      ListAllMember_loop_append rest pfx (ListAllMember (memberName pfx key) value []),
      ListAllMember_append value (memberName pfx key) output]
    simp
end

/-- What the loop over the entries of a map lists: what `ListAllMember` lists
for each entry under its member name. -/
theorem mem_ListAllMember_loop (entries : List (List Char × YamlNode)) (pfx : List Char)
    (x : List Char × YamlNode) :
    x ∈ ListAllMember_loop entries pfx []
      ↔ ∃ key value, (key, value) ∈ entries ∧ x ∈ ListAllMember (memberName pfx key) value [] := by
  induction entries with
  | nil => simp [ListAllMember_loop_nil]
  | cons e rest ih =>
    obtain ⟨k, v⟩ := e
    rw [ListAllMember_loop_cons, ListAllMember_loop_append, List.mem_append, ih]
    constructor
    · rintro (h | ⟨key, value, hmem, h⟩)
      · exact ⟨k, v, List.mem_cons_self _ _, h⟩
      · exact ⟨key, value, List.mem_cons_of_mem _ hmem, h⟩
    · rintro ⟨key, value, hmem, h⟩
      rcases List.mem_cons.mp hmem with heq | hrest
      · left
        cases heq
        exact h
      · right
        exact ⟨key, value, hrest, h⟩

/-- A member name is valid exactly when the name of the map and the key are. -/
theorem memberName_valid (pfx key : List Char) :
    (∀ c ∈ memberName pfx key, c ∈ validNameChars)
      ↔ (∀ c ∈ pfx, c ∈ validNameChars) ∧ (∀ c ∈ key, c ∈ validNameChars) := by
  unfold memberName
  cases pfx with
  | nil => simp
  | cons a p =>
    have hdot : '.' ∈ validNameChars := by decide
    simp only [List.isEmpty_cons, Bool.false_eq_true, if_false, List.mem_append]
    constructor
    · intro h
      exact ⟨fun c hc => h c (Or.inl (Or.inl hc)), fun c hc => h c (Or.inr hc)⟩
    · rintro ⟨h1, h2⟩ c ((hc | hc) | hc)
      · exact h1 c hc
      · have : c = '.' := by simpa using hc
        rw [this]
        exact hdot
      · exact h2 c hc

/-- Below a node with an invalid name every name is invalid. -/
theorem Reach_valid (pfx : List Char) (node : YamlNode) (name : List Char) (n : YamlNode)
    (h : Reach pfx node name n) (hv : ∀ c ∈ name, c ∈ validNameChars) :
    ∀ c ∈ pfx, c ∈ validNameChars := by
  induction h with
  | here pfx node => exact hv
  | step pfx entries key value name n _ _ ih => exact ((memberName_valid pfx key).mp (ih hv)).1

/-- With a valid name the node itself is listed. -/
theorem ListAllMember_self (pfx : List Char) (node : YamlNode)
    (h : find_first_not_of pfx validNameChars = none) :
    (pfx, node) ∈ ListAllMember pfx node [] := by
  cases hm : node.IsMap with
  | false => rw [ListAllMember_leaf pfx node [] h hm]; simp
  | true =>
    cases node with
    | map entries => rw [ListAllMember_map pfx entries [] h, ListAllMember_loop_append]; simp
    | null => simp [YamlNode.IsMap] at hm
    | scalar v => simp [YamlNode.IsMap] at hm
    | sequence items => simp [YamlNode.IsMap] at hm

mutual
/-- Every listed entry is a node reachable through map nodes under a valid
name. -/
theorem ListAllMember_sound : ∀ (node : YamlNode) (pfx : List Char)
    (x : List Char × YamlNode), x ∈ ListAllMember pfx node [] →
    Reach pfx node x.1 x.2 ∧ find_first_not_of x.1 validNameChars = none
  | YamlNode.map entries, pfx, x, hx => by
    by_cases h : find_first_not_of pfx validNameChars = none
    · rw [ListAllMember_map pfx entries [] h, ListAllMember_loop_append] at hx
      rcases List.mem_append.mp hx with h1 | h2
      · have hx1 : x = (pfx, YamlNode.map entries) := by simpa using h1
        rw [hx1]
        exact ⟨Reach.here _ _, h⟩
      · obtain ⟨key, value, hmem, hr, hval⟩ := ListAllMember_loop_sound entries pfx x h2
        exact ⟨Reach.step pfx entries key value x.1 x.2 hmem hr, hval⟩
    · rw [ListAllMember_invalid pfx _ [] h] at hx
      simp at hx
  | YamlNode.null, pfx, x, hx => by
    by_cases h : find_first_not_of pfx validNameChars = none
    · rw [ListAllMember_leaf pfx YamlNode.null [] h rfl] at hx
      have hx1 : x = (pfx, YamlNode.null) := by simpa using hx
      rw [hx1]
      exact ⟨Reach.here _ _, h⟩
    · rw [ListAllMember_invalid pfx _ [] h] at hx
      simp at hx
  | YamlNode.scalar v, pfx, x, hx => by
    by_cases h : find_first_not_of pfx validNameChars = none
    · rw [ListAllMember_leaf pfx (YamlNode.scalar v) [] h rfl] at hx
      have hx1 : x = (pfx, YamlNode.scalar v) := by simpa using hx
      rw [hx1]
      exact ⟨Reach.here _ _, h⟩
    · rw [ListAllMember_invalid pfx _ [] h] at hx
      simp at hx
  | YamlNode.sequence items, pfx, x, hx => by
    by_cases h : find_first_not_of pfx validNameChars = none
    · rw [ListAllMember_leaf pfx (YamlNode.sequence items) [] h rfl] at hx
      have hx1 : x = (pfx, YamlNode.sequence items) := by simpa using hx
      rw [hx1]
      exact ⟨Reach.here _ _, h⟩
    · rw [ListAllMember_invalid pfx _ [] h] at hx
      simp at hx
/-- Every entry listed by the loop is reachable from one of the entries. -/
theorem ListAllMember_loop_sound : ∀ (entries : List (List Char × YamlNode))
    (pfx : List Char) (x : List Char × YamlNode), x ∈ ListAllMember_loop entries pfx [] →
    ∃ key value, (key, value) ∈ entries ∧ Reach (memberName pfx key) value x.1 x.2
      ∧ find_first_not_of x.1 validNameChars = none
  | [], pfx, x, hx => by
    rw [ListAllMember_loop_nil] at hx
    simp at hx
  | (key, value) :: rest, pfx, x, hx => by
    rw [ListAllMember_loop_cons, ListAllMember_loop_append] at hx
    rcases List.mem_append.mp hx with h1 | h2
    · obtain ⟨hr, hval⟩ := ListAllMember_sound value (memberName pfx key) x h1
      exact ⟨key, value, List.mem_cons_self _ _, hr, hval⟩
    · obtain ⟨k, v, hmem, hr, hval⟩ := ListAllMember_loop_sound rest pfx x h2
      exact ⟨k, v, List.mem_cons_of_mem _ hmem, hr, hval⟩
end

/-- Every node reachable through map nodes under a valid name is listed. -/
theorem ListAllMember_complete (pfx : List Char) (node : YamlNode) (name : List Char)
    (n : YamlNode) (h : Reach pfx node name n) (hv : ∀ c ∈ name, c ∈ validNameChars) :
    (name, n) ∈ ListAllMember pfx node [] := by
  induction h with
  | here pfx node =>
    exact ListAllMember_self pfx node ((find_first_not_of_eq_none _ _).mpr hv)
  | step pfx entries key value name n hmem hr ih =>
    have hp : find_first_not_of pfx validNameChars = none :=
      (find_first_not_of_eq_none _ _).mpr
        ((memberName_valid pfx key).mp (Reach_valid _ _ _ _ hr hv)).1
    rw [ListAllMember_map pfx entries [] hp, ListAllMember_loop_append]
    apply List.mem_append_right
    exact (mem_ListAllMember_loop entries pfx (name, n)).mpr ⟨key, value, hmem, ih hv⟩

/-- Lowering leaves a valid name as it is. -/
theorem tolower_valid (name : List Char) (hv : ∀ c ∈ name, c ∈ validNameChars) :
    name.map tolower = name := by
  have hc : ∀ c ∈ validNameChars, tolower c = c := by decide
  induction name with
  | nil => rfl
  | cons a s ih =>
    simp only [List.map_cons]
    rw [hc a (hv a (List.mem_cons_self _ _)), ih (fun c h => hv c (List.mem_cons_of_mem _ h))]

/-- The `fromString` calls of `LoadFromYaml` are exactly the listed entries
with a name that is not empty and registered; the key of the call is that
name. -/
theorem LoadFromYaml_calls {Var : Type} (datas : List Char → Option Var) (root : YamlNode)
    (key : List Char) (var : Var) (n : YamlNode) :
    (key, var, n) ∈ LoadFromYaml datas root
      ↔ (key, n) ∈ ListAllMember [] root [] ∧ key ≠ [] ∧ datas key = some var := by
  unfold LoadFromYaml
  simp only [List.mem_filterMap]
  constructor
  · rintro ⟨⟨name, m⟩, hmem, hround⟩
    have hval := (ListAllMember_sound root [] (name, m) hmem).2
    have hlow := tolower_valid name ((find_first_not_of_eq_none _ _).mp hval)
    unfold LoadFromYaml_round LookupBase at hround
    simp only [hlow] at hround
    by_cases he : name.isEmpty = true
    · simp [he] at hround
    · simp only [he, Bool.false_eq_true, if_false] at hround
      cases hd : datas name with
      | none => simp [hd] at hround
      | some v =>
        simp only [hd, Option.some.injEq, Prod.mk.injEq] at hround
        obtain ⟨h1, h2, h3⟩ := hround
        subst h1 h2 h3
        refine ⟨hmem, ?_, hd⟩
        intro h0
        rw [h0] at he
        simp at he
  · rintro ⟨hmem, hne, hd⟩
    refine ⟨(key, n), hmem, ?_⟩
    have hval := (ListAllMember_sound root [] (key, n) hmem).2
    have hlow := tolower_valid key ((find_first_not_of_eq_none _ _).mp hval)
    have he : key.isEmpty = false := by
      cases key with
      | nil => exact absurd rfl hne
      | cons a t => rfl
    unfold LoadFromYaml_round LookupBase
    simp [hlow, he, hd]

/-- C11 (counterexample): in
`{system: {port: 8080, port9: {a: 1}, Name: x}, logs: [a]}` with every name
registered, the members `system.port9` and `system.Name` are not listed, yet
`LoadFromYaml` calls `fromString` on the variable `system` with the whole map
node `{port: 8080, port9: {a: 1}, Name: x}`, which is not a scalar and so is
passed as its dump: the values of the two omitted members are applied to a
configuration variable. -/
theorem LoadFromYaml_passes_omitted_members_in_ancestor :
    LoadFromYaml datasAll yamlSystem
      = [("system".toList, 0, yamlSystemNode),
         ("system.port".toList, 0, YamlNode.scalar "8080".toList),
         ("logs".toList, 0, YamlNode.sequence [YamlNode.scalar "a".toList])]
    ∧ yamlSystemNode.IsMap = true
    ∧ Reach "system".toList yamlSystemNode "system.port9".toList
        (YamlNode.map [("a".toList, YamlNode.scalar "1".toList)])
    ∧ Reach "system".toList yamlSystemNode "system.Name".toList (YamlNode.scalar "x".toList)
    ∧ "system.port9".toList ∉ (ListAllMember [] yamlSystem []).map (fun p => p.1)
    ∧ "system.Name".toList ∉ (ListAllMember [] yamlSystem []).map (fun p => p.1) :=
  ⟨rfl, rfl,
    Reach.step "system".toList _ "port9".toList _ _ _
      (List.mem_cons_of_mem _ (List.mem_cons_self _ _)) (Reach.here _ _),
    Reach.step "system".toList _ "Name".toList _ _ _
      (List.mem_cons_of_mem _ (List.mem_cons_of_mem _ (List.mem_cons_self _ _)))
      (Reach.here _ _),
    by decide, by decide⟩

/-- C11 (amended): for every YAML tree, the list produced by
`ListAllMember("", root)` contains the root under the empty name, and contains
exactly the nodes reachable through map nodes whose dotted name consists
solely of characters of `abcdefghijklmnopqrstuvwxyz._012345678`.  A name with
any other character, in particular the digit `9` or an upper-case letter, is
not listed, and neither is anything below a node with such a name; so
`LoadFromYaml` makes no `fromString` call for such a node: its calls are
exactly those for the listed nodes with a registered name that is not empty,
each under the node's own valid name and with the node passed whole. -/
theorem ListAllMember_lists_valid_names (Var : Type) (root : YamlNode) :
    ([], root) ∈ ListAllMember [] root []
    ∧ (∀ name n, (name, n) ∈ ListAllMember [] root []
        ↔ Reach [] root name n ∧ ∀ c ∈ name, c ∈ validNameChars)
    ∧ (∀ name n c, c ∈ name → (c = '9' ∨ c.isUpper = true) →
        (name, n) ∉ ListAllMember [] root [])
    ∧ (∀ pfx node name n, Reach pfx node name n → (∃ c ∈ pfx, c ∉ validNameChars) →
        (name, n) ∉ ListAllMember [] root [])
    ∧ (∀ (datas : List Char → Option Var) key var n, (key, var, n) ∈ LoadFromYaml datas root →
        (key, n) ∈ ListAllMember [] root [] ∧ key ≠ [] ∧ datas key = some var
        ∧ ∀ c ∈ key, c ∈ validNameChars)
    ∧ (∀ (datas : List Char → Option Var) key var n, (key, n) ∈ ListAllMember [] root [] →
        key ≠ [] → datas key = some var → (key, var, n) ∈ LoadFromYaml datas root) := by
  have hiff : ∀ name n, (name, n) ∈ ListAllMember [] root []
      ↔ Reach [] root name n ∧ ∀ c ∈ name, c ∈ validNameChars := by
    intro name n
    constructor
    · intro h
      have hs := ListAllMember_sound root [] (name, n) h
      exact ⟨hs.1, (find_first_not_of_eq_none _ _).mp hs.2⟩
    · rintro ⟨hr, hv⟩
      exact ListAllMember_complete [] root name n hr hv
  refine ⟨ListAllMember_self [] root rfl, hiff, ?_, ?_, ?_, ?_⟩
  · intro name n c hc hbad hmem
    have hv := ((hiff name n).mp hmem).2 c hc
    have h9 : '9' ∉ validNameChars := by decide
    have hup : ∀ d ∈ validNameChars, d.isUpper = false := by decide
    rcases hbad with h | h
    · rw [h] at hv
      exact h9 hv
    · rw [hup c hv] at h
      exact absurd h (by simp)
  · rintro pfx node name n hr ⟨c, hc, hbad⟩ hmem
    exact hbad (Reach_valid pfx node name n hr ((hiff name n).mp hmem).2 c hc)
  · intro datas key var n h
    obtain ⟨h1, h2, h3⟩ := (LoadFromYaml_calls datas root key var n).mp h
    exact ⟨h1, h2, h3, ((hiff key n).mp h1).2⟩
  · intro datas key var n h1 h2 h3
    exact (LoadFromYaml_calls datas root key var n).mpr ⟨h1, h2, h3⟩

/-- C11 (witness): in `{system: {port: 8080, port9: {a: 1}, Name: x}, logs: [a]}`
the node `system.port` is listed; `system.port9`, its member
`system.port9.a` and `system.Name` are not, and the names listed are the
root's, `system`, `system.port` and `logs`; the registered variable `system`
gets the call for the listed node `system`, passed whole. -/
theorem ListAllMember_lists_valid_names_witness :
    ("system.port".toList, YamlNode.scalar "8080".toList) ∈ ListAllMember [] yamlSystem []
    ∧ ("system.port9.a".toList, YamlNode.scalar "1".toList) ∉ ListAllMember [] yamlSystem []
    ∧ ("system.Name".toList, YamlNode.scalar "x".toList) ∉ ListAllMember [] yamlSystem []
    ∧ (ListAllMember [] yamlSystem []).map (fun p => p.1)
        = [[], "system".toList, "system.port".toList, "logs".toList]
    ∧ (LoadFromYaml datasAll yamlSystem).map (fun p => p.1)
        = ["system".toList, "system.port".toList, "logs".toList]
    ∧ ("system".toList, 0, yamlSystemNode) ∈ LoadFromYaml datasAll yamlSystem :=
  have h := ListAllMember_lists_valid_names Nat yamlSystem
  ⟨(h.2.1 _ _).mpr
      ⟨Reach.step [] _ "system".toList _ _ _ (List.mem_cons_self _ _)
        (Reach.step "system".toList _ "port".toList _ _ _ (List.mem_cons_self _ _)
          (Reach.here _ _)), by decide⟩,
    h.2.2.1 _ _ '9' (by decide) (Or.inl rfl),
    h.2.2.1 _ _ 'N' (by decide) (Or.inr (by decide)),
    by decide, by decide,
    h.2.2.2.2.2 datasAll "system".toList 0 yamlSystemNode
      ((h.2.1 _ _).mpr
        ⟨Reach.step [] _ "system".toList _ _ _ (List.mem_cons_self _ _) (Reach.here _ _),
          by decide⟩)
      (by decide) rfl⟩

end sylar
